import Mathlib

/-!
Verification development for the knob mesh generator (`knob_lib.py`).

The Python source builds a triangle mesh for a rotary knob from a flat
parameter list.  Floating-point values are modelled as real numbers; the
profile generators, the shell lofter, the cap/cavity builders and the final
assembly loop are translated function-by-function below.  Where the Python
code would raise (indexing an empty list, reading a field of a `None`
`nut_info`), the model totalises with an explicit default; those spots are
marked in comments and no theorem relies on them.
-/

namespace KnobGen

/-- A 2-D profile point. -/
abbrev Pt2 : Type := ℝ × ℝ

/-- A 3-D vertex. -/
abbrev Pt3 : Type := ℝ × ℝ × ℝ

/-- Python `a % b` for floats with `b > 0` (result has the sign of `b`):
`a - b * floor (a / b)`. -/
noncomputable def fmod (a b : ℝ) : ℝ := a - b * ((⌊a / b⌋ : ℤ) : ℝ)

/-- Source `create_circle_profile`: `segments` samples of a circle of the
given diameter, point `i` at angle `2*pi*i/segments`. -/
noncomputable def create_circle_profile (diameter : ℝ) (segments : ℕ) : List Pt2 :=
  (List.range segments).map fun (i : ℕ) =>
    let radius := diameter / 2
    let angle := 2 * Real.pi * i / segments
    (radius * Real.cos angle, radius * Real.sin angle)

/-- Source `create_lobed_profile`: cosine-modulated radius between the outer
radius and an inner radius determined by `0.6 * protrusion_ratio`. -/
noncomputable def create_lobed_profile (diameter : ℝ) (lobes : ℕ) (protrusion_ratio : ℝ)
    (segments : ℕ) : List Pt2 :=
  let r_outer := diameter / 2
  let depth_factor := 0.6 * protrusion_ratio
  let r_inner := r_outer * (1 - depth_factor)
  let r_mid := (r_outer + r_inner) / 2
  let amp := (r_outer - r_inner) / 2
  (List.range segments).map fun (i : ℕ) =>
    let angle := 2 * Real.pi * i / segments
    let r := r_mid + amp * Real.cos ((lobes : ℝ) * angle)
    (r * Real.cos angle, r * Real.sin angle)

/-- Source `create_polygon_profile`: flat-sided polygon with apothem
`diameter / 2`, sampled at `segments` angles (`rotation = 0` in the source;
its unused `radius` local is dropped). -/
noncomputable def create_polygon_profile (diameter : ℝ) (sides : ℕ) (segments : ℕ) :
    List Pt2 :=
  let apothem := diameter / 2
  let period := 2 * Real.pi / sides
  (List.range segments).map fun (i : ℕ) =>
    let theta := 2 * Real.pi * i / segments
    let angle_in_sector := fmod theta period
    let angle_from_center := angle_in_sector - period / 2
    let r := apothem / Real.cos angle_from_center
    (r * Real.cos theta, r * Real.sin theta)

/-- Source `create_d_shaft_profile`: a circle with every sample whose
x-coordinate exceeds `flat_to_opposite - radius` replaced by the flat-plane
point `(cut, cut * tan angle)`. -/
noncomputable def create_d_shaft_profile (diameter flat_to_opposite : ℝ) (segments : ℕ) :
    List Pt2 :=
  let radius := diameter / 2
  let d_center_to_flat := flat_to_opposite - radius
  (List.range segments).map fun (i : ℕ) =>
    let angle := 2 * Real.pi * i / segments
    let rx := radius * Real.cos angle
    let ry := radius * Real.sin angle
    if rx > d_center_to_flat then (d_center_to_flat, d_center_to_flat * Real.tan angle)
    else (rx, ry)

/-- Nut table entry (`NUT_TYPES` values in the source all carry the three
fields, so `nut_info.get("tolerance", 0.2)` is the stored tolerance). -/
structure NutInfo where
  width : ℝ
  height : ℝ
  tolerance : ℝ

/-- The `"M3 Nut"` entry of `NUT_TYPES`. -/
def M3Nut : NutInfo := ⟨5.5, 2.4, 0.2⟩

/-- Knob body style (`knob_style` strings `"Round"` / `"Lobed"`). -/
inductive KnobStyle
  | Round
  | Lobed
deriving DecidableEq

/-- Shaft mode (`shaft_type` strings). -/
inductive ShaftType
  | DShaft
  | RoundHole
  | NutTrap
deriving DecidableEq

/-- Nut pocket location (`nut_location` strings `"Bottom"` / `"Top"`). -/
inductive NutLocation
  | Bottom
  | Top
deriving DecidableEq

/-- The parameter list of `generate_knob_mesh`, as an aggregate. -/
structure KnobParams where
  knob_diameter : ℝ
  knob_height : ℝ
  knob_style : KnobStyle
  lobes : ℕ
  lobe_protrusion : ℝ
  ridges : ℕ
  top_fillet_radius : ℝ
  top_fillet_height : ℝ
  bottom_fillet_radius : ℝ
  bottom_fillet_height : ℝ
  is_dome : Bool
  boss_height : ℝ
  boss_diameter : ℝ
  recess_depth : ℝ
  recess_diameter : ℝ
  shaft_type : ShaftType
  shaft_dia : ℝ
  hole_depth : ℝ
  through_hole : Bool
  nut_info : Option NutInfo
  nut_location : NutLocation
  segments : ℕ

/-- Accumulated mesh state: the `all_vertices` / `all_faces` lists. -/
structure MeshState where
  verts : List Pt3
  faces : List (ℕ × ℕ × ℕ)

/-- Source `add_quad`: push the four corners and two index triangles,
winding flipped when `flip` is set. -/
def addQuad (s : MeshState) (q1 q2 q3 q4 : Pt3) (flip : Bool) : MeshState :=
  let idx := s.verts.length
  { verts := s.verts ++ [q1, q2, q3, q4]
    faces := s.faces ++
      (if flip then [(idx, idx + 2, idx + 1), (idx, idx + 3, idx + 2)]
       else [(idx, idx + 1, idx + 2), (idx, idx + 2, idx + 3)]) }

/-- One iteration of the source's apex-fan loop: push the two ring points and
one triangle against the (already pushed) centre vertex at index `c`. -/
def fanStep (c : ℕ) (ring : List Pt3) (n : ℕ) (st : MeshState) (i : ℕ) : MeshState :=
  let next_i := (i + 1) % n
  let o1 := st.verts.length
  { verts := st.verts ++ [ring.getD i (0, 0, 0), ring.getD next_i (0, 0, 0)]
    faces := st.faces ++ [(c, o1, o1 + 1)] }

/-- The common apex-fan block of the source (dome fan, dish-floor fan, flat
top fan, bore-top fan): append the centre vertex, then for each segment the
two ring points and one triangle. -/
def addFan (s : MeshState) (center : Pt3) (ring : List Pt3) (segments : ℕ) : MeshState :=
  let idx_c := s.verts.length
  let s1 : MeshState := { s with verts := s.verts ++ [center] }
  (List.range segments).foldl (fanStep idx_c ring segments) s1

/-- A quad-emitting loop `for i in range(n): add_quad(A i, B i, C i, D i, flip)`,
the shape shared by every stitching loop in the source. -/
noncomputable def quadLoop (s : MeshState) (n : ℕ) (A B C D : ℕ → Pt3) (flip : Bool) :
    MeshState :=
  (List.range n).foldl (fun st i => addQuad st (A i) (B i) (C i) (D i) flip) s

/-- The source's ring-pair stitch: corners
`(r1[i], r1[next_i], r2[next_i], r2[i])` for each segment
(used for the outer shell, the dish, the open-top ring and — with
`flip = true` — the nut-pocket and bore walls, whose corner points the source
builds inline from the 2-D profile at the two heights). -/
noncomputable def stitchRingPair (s : MeshState) (r1 r2 : List Pt3) (n : ℕ) (flip : Bool) :
    MeshState :=
  quadLoop s n (fun i => r1.getD i (0, 0, 0)) (fun i => r1.getD ((i + 1) % n) (0, 0, 0))
    (fun i => r2.getD ((i + 1) % n) (0, 0, 0)) (fun i => r2.getD i (0, 0, 0)) flip

/-- The reversed stitch pattern `(r1[next_i], r1[i], r2[i], r2[next_i])` of the
hex-to-bore transition ring and of the bottom annulus. -/
noncomputable def stitchRingPairRev (s : MeshState) (r1 r2 : List Pt3) (n : ℕ) :
    MeshState :=
  quadLoop s n (fun i => r1.getD ((i + 1) % n) (0, 0, 0)) (fun i => r1.getD i (0, 0, 0))
    (fun i => r2.getD i (0, 0, 0)) (fun i => r2.getD ((i + 1) % n) (0, 0, 0)) false

/-- Division-guarded radial inset factor of the fillet ring loops
(lines 170–171 and 216–217 of the source, identical at both sites):
`(mag - inset) / mag` when `mag > 0.001`, else `1`. -/
noncomputable def insetScale (q : Pt2) (inset : ℝ) : ℝ :=
  let mag := Real.sqrt (q.1 ^ 2 + q.2 ^ 2)
  if mag > 0.001 then (mag - inset) / mag else 1

/-- The shell z-origin: `boss_height` when a boss is present (`> 0.1`), else 0. -/
noncomputable def zBase (p : KnobParams) : ℝ :=
  if p.boss_height > 0.1 then p.boss_height else 0

/-- The source's `body_profile` selection. -/
noncomputable def body_profile (p : KnobParams) : List Pt2 :=
  match p.knob_style with
  | KnobStyle.Lobed =>
      create_lobed_profile p.knob_diameter p.lobes p.lobe_protrusion p.segments
  | KnobStyle.Round =>
      if p.ridges > 0 then create_lobed_profile p.knob_diameter p.ridges 0.05 p.segments
      else create_circle_profile p.knob_diameter p.segments

/-- The source's `shaft_profile` selection (the `Nut Trap` and fall-through
arms both produce the circle, as in the source). -/
noncomputable def shaft_profile (p : KnobParams) : List Pt2 :=
  match p.shaft_type with
  | ShaftType.DShaft =>
      let flat_val := if p.shaft_dia = 6 then 4.5 else p.shaft_dia * 0.75
      create_d_shaft_profile p.shaft_dia flat_val p.segments
  | _ => create_circle_profile p.shaft_dia p.segments

/-- The outer shell's ring stack (`outer_rings` of the source): optional boss
pair, bottom treatment (7 cove rings or the single base ring), the ring at
`z_fillet_start`, then dome (12) or convex-fillet (8) rings. -/
noncomputable def outerRings (p : KnobParams) : List (List Pt3) :=
  let body := body_profile p
  let boss := create_circle_profile p.boss_diameter p.segments
  let zb := zBase p
  let bossRings : List (List Pt3) :=
    if p.boss_height > 0.1 then
      [boss.map (fun q => (q.1, q.2, (0 : ℝ))), boss.map (fun q => (q.1, q.2, p.boss_height))]
    else []
  let bottomRings : List (List Pt3) :=
    if p.bottom_fillet_radius > 0 ∨ p.bottom_fillet_height > 0 then
      (List.range 7).map (fun (s : ℕ) =>
        let t : ℝ := (s : ℝ) / 6
        let z_f := zb + p.bottom_fillet_height * t
        let inset :=
          if p.bottom_fillet_height > 0 then
            p.bottom_fillet_radius * (1 - Real.sin (t * Real.pi / 2))
          else 0
        body.map (fun q => (q.1 * insetScale q inset, q.2 * insetScale q inset, z_f)))
    else [body.map (fun q => (q.1, q.2, zb))]
  let current_z :=
    if p.bottom_fillet_radius > 0 ∨ p.bottom_fillet_height > 0 then
      zb + p.bottom_fillet_height
    else zb
  let z_top_abs := zb + p.knob_height
  let z_fillet_start :=
    if p.is_dome then current_z else max current_z (z_top_abs - p.top_fillet_height)
  let startRing := body.map (fun q => (q.1, q.2, z_fillet_start))
  let topRings : List (List Pt3) :=
    if p.is_dome then
      let h_dome := z_top_abs - z_fillet_start
      (List.range 12).map (fun s0 =>
        let t : ℝ := ((s0 + 1 : ℕ) : ℝ) / 12
        let z_curr := z_fillet_start + h_dome * t
        let z_local := z_curr - z_fillet_start
        let r_factor :=
          if h_dome > 0 then Real.sqrt (max 0 (1 - (z_local / h_dome) ^ 2)) else 0
        body.map (fun q => (q.1 * r_factor, q.2 * r_factor, z_curr)))
    else if p.top_fillet_radius > 0 ∨ p.top_fillet_height > 0 then
      (List.range 8).map (fun s0 =>
        let t : ℝ := ((s0 + 1 : ℕ) : ℝ) / 8
        let dz_fillet_local := p.top_fillet_height * t
        let z_curr := z_fillet_start + dz_fillet_local
        let inset :=
          if p.top_fillet_height > 0 then
            p.top_fillet_radius *
              (1 - Real.sqrt (max 0 (1 - (dz_fillet_local / p.top_fillet_height) ^ 2)))
          else 0
        body.map (fun q => (q.1 * insetScale q inset, q.2 * insetScale q inset, z_curr)))
    else []
  bossRings ++ bottomRings ++ [startRing] ++ topRings

/-- The outer shell stitched quad-by-quad over adjacent ring pairs, starting
from the empty vertex/face accumulators. -/
noncomputable def stitchedShell (p : KnobParams) : MeshState :=
  let rings := outerRings p
  (List.range (rings.length - 1)).foldl
    (fun st r => stitchRingPair st (rings.getD r []) (rings.getD (r + 1) []) p.segments false)
    ⟨[], []⟩

/-- `outer_rings[-1]` (the source would raise on an empty stack; the stack is
never empty since the `z_fillet_start` ring is always pushed). -/
noncomputable def topOuterRing (p : KnobParams) : List Pt3 := (outerRings p).getLastD []

/-- `z_top_mesh = top_outer_ring[0][2]` (the source raises when
`segments = 0`; modelled with default `(0,0,0)`). -/
noncomputable def zTopMesh (p : KnobParams) : ℝ := ((topOuterRing p).getD 0 (0, 0, 0)).2.2

/-- `nut_info["width"] + nut_info.get("tolerance", 0.2)`.  The source reads
this without a `None` check at the top-opening and bottom-annulus sites and
would raise there; modelled as 0 for `none`. -/
noncomputable def nutWidth (p : KnobParams) : ℝ :=
  match p.nut_info with
  | some ni => ni.width + ni.tolerance
  | none => 0

/-- `nut_info["height"]` (same `None` caveat as `nutWidth`). -/
noncomputable def nutHeight (p : KnobParams) : ℝ :=
  match p.nut_info with
  | some ni => ni.height
  | none => 0

/-- The finger-dish ring list (`dish_rings`): the recess-start circle, then up
to 5 shrink steps with the radius floored at `hole_r` (which is
`shaft_dia / 2` only for a through-hole, else 0) and an early break once the
radius reaches `hole_r + 0.001`. -/
noncomputable def dishRings (p : KnobParams) (z_top_mesh : ℝ) : List (List Pt3) :=
  let hole_r : ℝ := if p.through_hole then p.shaft_dia / 2 else 0
  let start := (create_circle_profile p.recess_diameter p.segments).map
    (fun q => (q.1, q.2, z_top_mesh))
  ((List.range 5).foldl
    (fun (acc : List (List Pt3) × Bool) s0 =>
      if acc.2 then acc
      else
        let t : ℝ := ((s0 + 1 : ℕ) : ℝ) / 5
        let curr_radius_factor := 1 - t
        let curr_r0 := p.recess_diameter / 2 * curr_radius_factor
        let z_curr := z_top_mesh - p.recess_depth * (1 - curr_radius_factor ^ 2)
        let curr_r := if curr_r0 < hole_r then hole_r else curr_r0
        let ring := (List.range p.segments).map (fun (i : ℕ) =>
          let angle := 2 * Real.pi * i / p.segments
          (curr_r * Real.cos angle, curr_r * Real.sin angle, z_curr))
        (acc.1 ++ [ring], if curr_r ≤ hole_r + 0.001 then true else false))
    ([start], false)).1

/-- Section 4 of the source (top closure / recess): returns the new state and
`z_shaft_top_limit`. -/
noncomputable def topClosure (p : KnobParams) (s : MeshState) : MeshState × ℝ :=
  let top_outer_ring := topOuterRing p
  let z_top_mesh := zTopMesh p
  let total_z_height := zBase p + p.knob_height
  let z_limit0 : ℝ :=
    if p.through_hole then
      if p.is_dome then total_z_height
      else if p.recess_depth > 0 then max (zBase p) (total_z_height - p.recess_depth)
      else total_z_height
    else p.hole_depth
  if p.is_dome then
    let q0 := top_outer_ring.getD 0 (0, 0, 0)
    let final_r := Real.sqrt (q0.1 ^ 2 + q0.2.1 ^ 2)
    (if final_r > 0.1 then addFan s (0, 0, z_top_mesh) top_outer_ring p.segments else s,
     z_limit0)
  else if p.recess_depth > 0 then
    let recess_start_ring := (create_circle_profile p.recess_diameter p.segments).map
      (fun q => (q.1, q.2, z_top_mesh))
    let s1 := stitchRingPair s top_outer_ring recess_start_ring p.segments false
    let rings := dishRings p z_top_mesh
    let s2 := (List.range (rings.length - 1)).foldl
      (fun st r => stitchRingPair st (rings.getD r []) (rings.getD (r + 1) []) p.segments false)
      s1
    let final_ring := rings.getLastD []
    let qf := final_ring.getD 0 (0, 0, 0)
    let z_final := qf.2.2
    let final_r := Real.sqrt (qf.1 ^ 2 + qf.2.1 ^ 2)
    let is_open := p.through_hole = true ∨
      (p.shaft_type = ShaftType.NutTrap ∧ p.nut_location = NutLocation.Top)
    (if ¬ is_open ∧ final_r > 0.1 then addFan s2 (0, 0, z_final) final_ring p.segments else s2,
     z_final)
  else
    let is_open := p.through_hole = true ∨
      (p.shaft_type = ShaftType.NutTrap ∧ p.nut_location = NutLocation.Top)
    if is_open then
      let prof :=
        if p.shaft_type = ShaftType.NutTrap ∧ p.nut_location = NutLocation.Top then
          create_polygon_profile (nutWidth p) 6 p.segments
        else create_circle_profile p.shaft_dia p.segments
      let hole_poly := prof.map (fun q => (q.1, q.2, z_top_mesh))
      (stitchRingPair s top_outer_ring hole_poly p.segments false, z_top_mesh)
    else
      (addFan s (0, 0, z_top_mesh) top_outer_ring p.segments, z_limit0)

/-- Section 5 head of the source: hex nut pocket walls (flipped winding) and
the hex-to-bore transition ring, built only for `Nut Trap` with a nut and
bottom location. -/
noncomputable def nutTrapSection (p : KnobParams) (s : MeshState) : MeshState :=
  match p.shaft_type, p.nut_info with
  | ShaftType.NutTrap, some ni =>
      let w := ni.width + ni.tolerance
      let h := ni.height + 0.2
      let trap_poly := create_polygon_profile w 6 p.segments
      if p.nut_location = NutLocation.Bottom then
        let trapBot := trap_poly.map (fun q => (q.1, q.2, (0 : ℝ)))
        let trapTop := trap_poly.map (fun q => (q.1, q.2, h))
        let s1 := stitchRingPair s trapBot trapTop p.segments true
        let shaftTop := (create_circle_profile p.shaft_dia p.segments).map
          (fun q => (q.1, q.2, h))
        stitchRingPairRev s1 trapTop shaftTop p.segments
      else s
  | _, _ => s

/-- The bore's bottom z: top of the hex pocket for a bottom nut trap, else 0
(the source reads `nut_info["height"]` unguarded here; modelled 0 for `none`). -/
noncomputable def boreZBot (p : KnobParams) : ℝ :=
  if p.shaft_type = ShaftType.NutTrap ∧ p.nut_location = NutLocation.Bottom then
    nutHeight p + 0.2
  else 0

/-- The internal bore: flipped wall quads from `z_bot` to `z_top`, plus — only
for a blind non-nut-trap bore — the apex fan closing the bore top. -/
noncomputable def boreSection (p : KnobParams) (z_shaft_top_limit : ℝ) (s : MeshState) :
    MeshState :=
  let z_bot := boreZBot p
  let z_top := if p.through_hole then z_shaft_top_limit else p.hole_depth
  if z_top > z_bot then
    let sp := shaft_profile p
    let ringBot := sp.map (fun q => (q.1, q.2, z_bot))
    let ringTop := sp.map (fun q => (q.1, q.2, z_top))
    let s1 := stitchRingPair s ringBot ringTop p.segments true
    if p.through_hole = false ∧ p.shaft_type ≠ ShaftType.NutTrap then
      addFan s1 (0, 0, z_top) ringTop p.segments
    else s1
  else s

/-- The bottom annulus between `outer_rings[0]` and the cavity's bottom
profile (hex pocket for a bottom nut trap, else the shaft profile). -/
noncomputable def bottomSection (p : KnobParams) (s : MeshState) : MeshState :=
  let bottom_outer_ring := (outerRings p).headD []
  let inner_bottom :=
    if p.shaft_type = ShaftType.NutTrap ∧ p.nut_location = NutLocation.Bottom then
      (create_polygon_profile (nutWidth p) 6 p.segments).map (fun q => (q.1, q.2, (0 : ℝ)))
    else (shaft_profile p).map (fun q => (q.1, q.2, (0 : ℝ)))
  stitchRingPairRev s bottom_outer_ring inner_bottom p.segments

/-- The whole of `generate_knob_mesh`: shell, top closure, nut pocket, bore,
bottom annulus, threaded through the shared accumulators. -/
noncomputable def generate_knob_mesh (p : KnobParams) : MeshState :=
  let s1 := stitchedShell p
  let t := topClosure p s1
  let s3 := nutTrapSection p t.1
  let s4 := boreSection p t.2 s3
  bottomSection p s4

/-- The final assembly loop: each face's three vertex indices looked up in the
vertex list (`data['vectors'][i][j] = np_verts[face[j]]`). -/
noncomputable def assembledTriangles (s : MeshState) : List (Pt3 × Pt3 × Pt3) :=
  s.faces.map fun f =>
    (s.verts.getD f.1 (0, 0, 0), s.verts.getD f.2.1 (0, 0, 0), s.verts.getD f.2.2 (0, 0, 0))

/-- Scalar triple product (3×3 determinant) of three vertices. -/
noncomputable def det3 (a b c : Pt3) : ℝ :=
  a.1 * (b.2.1 * c.2.2 - b.2.2 * c.2.1) - a.2.1 * (b.1 * c.2.2 - b.2.2 * c.1) +
    a.2.2 * (b.1 * c.2.1 - b.2.1 * c.1)

/-- Modelled from the spec: the repository reads the mesh volume from
`numpy-stl`'s `get_mass_properties` (third-party code, not under `src/`); the
spec states it is "signed volume via the divergence/tetrahedron-sum formula
over all triangles", i.e. the sum of `det/6` over the triangle list. -/
noncomputable def signedVolume (tris : List (Pt3 × Pt3 × Pt3)) : ℝ :=
  (tris.map (fun t => det3 t.1 t.2.1 t.2.2 / 6)).sum

/-- Well-formedness of the accumulator: every face references an existing
vertex index. -/
def MeshState.wf (s : MeshState) : Prop :=
  ∀ f ∈ s.faces, f.1 < s.verts.length ∧ f.2.1 < s.verts.length ∧ f.2.2 < s.verts.length

/-- The two triangles a quad contributes to the assembled soup. -/
def quadTris (q1 q2 q3 q4 : Pt3) (flip : Bool) : List (Pt3 × Pt3 × Pt3) :=
  if flip then [(q1, q3, q2), (q1, q4, q3)] else [(q1, q2, q3), (q1, q3, q4)]

/-- A plain round knob: no ridges, fillets, boss, dome or recess; blind round
bore of depth 10 in a 15 mm body; one segment. -/
noncomputable def pPlain : KnobParams :=
  { knob_diameter := 25, knob_height := 15, knob_style := KnobStyle.Round, lobes := 6,
    lobe_protrusion := 0.3, ridges := 0, top_fillet_radius := 0, top_fillet_height := 0,
    bottom_fillet_radius := 0, bottom_fillet_height := 0, is_dome := false,
    boss_height := 0, boss_diameter := 10, recess_depth := 0, recess_diameter := 15,
    shaft_type := ShaftType.RoundHole, shaft_dia := 6, hole_depth := 10,
    through_hole := false, nut_info := none, nut_location := NutLocation.Bottom,
    segments := 1 }

/-- A blind M3 nut-trap knob (bottom pocket, bore top at z = 10 above the
pocket top 2.6), one segment. -/
noncomputable def pNutTrap : KnobParams :=
  { pPlain with
    shaft_type := ShaftType.NutTrap
    shaft_dia := 3.2
    nut_info := some M3Nut }

/-- A finger-dish knob: recess depth 5, dish diameter 15, blind round bore,
one segment. -/
noncomputable def pRecess : KnobParams :=
  { pPlain with recess_depth := 5 }

/-- A through-hole round knob of diameter `d`, height `h`, shaft diameter
`b`, at `n` segments, no other features. -/
noncomputable def pThrough (d h b : ℝ) (n : ℕ) : KnobParams :=
  { pPlain with
    knob_diameter := d
    knob_height := h
    shaft_dia := b
    through_hole := true
    segments := n }

/-! ### Structural infrastructure: lengths, index bounds, assembled soup -/

theorem foldl_invariant {α : Type} (P : MeshState → Prop) (g : MeshState → α → MeshState)
    (hstep : ∀ st i, P st → P (g st i)) :
    ∀ (l : List α) (s : MeshState), P s → P (l.foldl g s) := by
  intro l
  induction l with
  | nil => intro s hs; simpa using hs
  | cons a t ih => intro s hs; simpa using ih _ (hstep s a hs)

theorem addQuad_verts_length (s : MeshState) (q1 q2 q3 q4 : Pt3) (flip : Bool) :
    (addQuad s q1 q2 q3 q4 flip).verts.length = s.verts.length + 4 := by
  simp [addQuad]

theorem addQuad_faces_length (s : MeshState) (q1 q2 q3 q4 : Pt3) (flip : Bool) :
    (addQuad s q1 q2 q3 q4 flip).faces.length = s.faces.length + 2 := by
  cases flip <;> simp [addQuad]

theorem foldl_range_verts_length (g : MeshState → ℕ → MeshState) (a : ℕ)
    (h : ∀ st i, (g st i).verts.length = st.verts.length + a) :
    ∀ (n : ℕ) (s : MeshState),
      ((List.range n).foldl g s).verts.length = s.verts.length + a * n := by
  intro n
  induction n with
  | zero => intro s; simp
  | succ k ih =>
    intro s
    rw [List.range_succ, List.foldl_append]
    simp only [List.foldl_cons, List.foldl_nil]
    rw [h, ih]
    ring

theorem foldl_range_faces_length (g : MeshState → ℕ → MeshState) (b : ℕ)
    (h : ∀ st i, (g st i).faces.length = st.faces.length + b) :
    ∀ (n : ℕ) (s : MeshState),
      ((List.range n).foldl g s).faces.length = s.faces.length + b * n := by
  intro n
  induction n with
  | zero => intro s; simp
  | succ k ih =>
    intro s
    rw [List.range_succ, List.foldl_append]
    simp only [List.foldl_cons, List.foldl_nil]
    rw [h, ih]
    ring

theorem quadLoop_verts_length (s : MeshState) (n : ℕ) (A B C D : ℕ → Pt3) (flip : Bool) :
    (quadLoop s n A B C D flip).verts.length = s.verts.length + 4 * n :=
  foldl_range_verts_length _ 4 (fun st i => addQuad_verts_length st (A i) (B i) (C i) (D i) flip) n s

theorem quadLoop_faces_length (s : MeshState) (n : ℕ) (A B C D : ℕ → Pt3) (flip : Bool) :
    (quadLoop s n A B C D flip).faces.length = s.faces.length + 2 * n :=
  foldl_range_faces_length _ 2 (fun st i => addQuad_faces_length st (A i) (B i) (C i) (D i) flip) n s

theorem stitchRingPair_verts_length (s : MeshState) (r1 r2 : List Pt3) (n : ℕ) (flip : Bool) :
    (stitchRingPair s r1 r2 n flip).verts.length = s.verts.length + 4 * n :=
  quadLoop_verts_length ..

theorem stitchRingPair_faces_length (s : MeshState) (r1 r2 : List Pt3) (n : ℕ) (flip : Bool) :
    (stitchRingPair s r1 r2 n flip).faces.length = s.faces.length + 2 * n :=
  quadLoop_faces_length ..

theorem stitchRingPairRev_verts_length (s : MeshState) (r1 r2 : List Pt3) (n : ℕ) :
    (stitchRingPairRev s r1 r2 n).verts.length = s.verts.length + 4 * n :=
  quadLoop_verts_length ..

theorem stitchRingPairRev_faces_length (s : MeshState) (r1 r2 : List Pt3) (n : ℕ) :
    (stitchRingPairRev s r1 r2 n).faces.length = s.faces.length + 2 * n :=
  quadLoop_faces_length ..

theorem addFan_verts_length (s : MeshState) (center : Pt3) (ring : List Pt3) (n : ℕ) :
    (addFan s center ring n).verts.length = s.verts.length + 1 + 2 * n := by
  unfold addFan
  refine (foldl_range_verts_length _ 2 ?_ n _).trans ?_
  · intro st i; simp [fanStep]
  · simp

theorem addFan_faces_length (s : MeshState) (center : Pt3) (ring : List Pt3) (n : ℕ) :
    (addFan s center ring n).faces.length = s.faces.length + n := by
  unfold addFan
  refine (foldl_range_faces_length _ 1 ?_ n _).trans ?_
  · intro st i; simp [fanStep]
  · simp

theorem wf_addQuad {s : MeshState} {q1 q2 q3 q4 : Pt3} {flip : Bool} (h : s.wf) :
    (addQuad s q1 q2 q3 q4 flip).wf := by
  intro f hf
  rw [addQuad_verts_length]
  cases flip
  all_goals simp only [addQuad, Bool.false_eq_true, if_false, if_true, List.mem_append,
    List.mem_cons, List.not_mem_nil, or_false] at hf
  all_goals rcases hf with hf | rfl | rfl
  · have := h f hf; omega
  · dsimp only; omega
  · dsimp only; omega
  · have := h f hf; omega
  · dsimp only; omega
  · dsimp only; omega

theorem wf_quadLoop {s : MeshState} (n : ℕ) (A B C D : ℕ → Pt3) (flip : Bool) (h : s.wf) :
    (quadLoop s n A B C D flip).wf :=
  foldl_invariant MeshState.wf _ (fun _ _ hst => wf_addQuad hst) _ s h

theorem wf_stitchRingPair {s : MeshState} (r1 r2 : List Pt3) (n : ℕ) (flip : Bool)
    (h : s.wf) : (stitchRingPair s r1 r2 n flip).wf :=
  wf_quadLoop _ _ _ _ _ _ h

theorem wf_stitchRingPairRev {s : MeshState} (r1 r2 : List Pt3) (n : ℕ)
    (h : s.wf) : (stitchRingPairRev s r1 r2 n).wf :=
  wf_quadLoop _ _ _ _ _ _ h

theorem wf_fanStep {c : ℕ} {ring : List Pt3} {n : ℕ} {st : MeshState} (i : ℕ)
    (h : st.wf) (hc : c < st.verts.length) : (fanStep c ring n st i).wf := by
  intro f hf
  simp only [fanStep, List.mem_append, List.mem_cons, List.not_mem_nil, or_false] at hf
  simp only [fanStep, List.length_append, List.length_cons, List.length_nil]
  rcases hf with hf | rfl
  · have := h f hf; omega
  · simp; omega

theorem wf_addFan {s : MeshState} (center : Pt3) (ring : List Pt3) (n : ℕ) (h : s.wf) :
    (addFan s center ring n).wf := by
  unfold addFan
  have base : ({ s with verts := s.verts ++ [center] } : MeshState).wf ∧
      s.verts.length < ({ s with verts := s.verts ++ [center] } : MeshState).verts.length := by
    constructor
    · intro f hf
      have := h f hf
      simp only [List.length_append, List.length_cons, List.length_nil]
      omega
    · simp
  have hinv := foldl_invariant
    (fun st => st.wf ∧ s.verts.length < st.verts.length)
    (fanStep s.verts.length ring n) ?_ (List.range n) _ base
  · exact hinv.1
  · intro st i hst
    refine ⟨wf_fanStep i hst.1 hst.2, ?_⟩
    have : (fanStep s.verts.length ring n st i).verts.length = st.verts.length + 2 := by
      simp [fanStep]
    omega

theorem assembledTriangles_length (s : MeshState) :
    (assembledTriangles s).length = s.faces.length := by
  simp [assembledTriangles]

theorem getD_append_of_lt {l xs : List Pt3} {k : ℕ} (h : k < l.length) :
    (l ++ xs).getD k (0, 0, 0) = l.getD k (0, 0, 0) :=
  List.getD_append l xs _ k h

theorem getD_append_self {l xs : List Pt3} {k : ℕ} (h : k ≥ l.length) :
    (l ++ xs).getD k (0, 0, 0) = xs.getD (k - l.length) (0, 0, 0) :=
  List.getD_append_right l xs _ k h

/-- Appending vertices does not change the triangles already assembled, as
long as every existing face is in bounds. -/
theorem assembled_extend (s : MeshState) (xs : List Pt3) (h : s.wf) :
    assembledTriangles ⟨s.verts ++ xs, s.faces⟩ = assembledTriangles s := by
  unfold assembledTriangles
  refine List.map_eq_map_iff.mpr ?_
  intro f hf
  obtain ⟨h1, h2, h3⟩ := h f hf
  simp only
  rw [getD_append_of_lt h1, getD_append_of_lt h2, getD_append_of_lt h3]

theorem assembled_addQuad {s : MeshState} (q1 q2 q3 q4 : Pt3) (flip : Bool) (h : s.wf) :
    assembledTriangles (addQuad s q1 q2 q3 q4 flip) =
      assembledTriangles s ++ quadTris q1 q2 q3 q4 flip := by
  have hv : ∀ k : ℕ, k < 4 →
      (s.verts ++ [q1, q2, q3, q4]).getD (s.verts.length + k) (0, 0, 0) =
        [q1, q2, q3, q4].getD k (0, 0, 0) := by
    intro k hk
    rw [getD_append_self (by omega)]
    congr 1
    omega
  unfold assembledTriangles addQuad quadTris
  cases flip
  all_goals
    simp only [Bool.false_eq_true, if_false, if_true, List.map_append]
    congr 1
    · simpa [assembledTriangles] using assembled_extend s [q1, q2, q3, q4] h
    · simp only [List.map_cons, List.map_nil]
      have h0 := hv 0 (by omega)
      have h1 := hv 1 (by omega)
      have h2 := hv 2 (by omega)
      have h3 := hv 3 (by omega)
      simp only [Nat.add_zero] at h0
      norm_num at h0 h1 h2 h3
      simp [h0, h1, h2, h3]

theorem assembled_quadLoop (A B C D : ℕ → Pt3) (flip : Bool) :
    ∀ (n : ℕ) (s : MeshState), s.wf →
      assembledTriangles (quadLoop s n A B C D flip) =
        assembledTriangles s ++
          (List.range n).flatMap (fun i => quadTris (A i) (B i) (C i) (D i) flip) := by
  intro n
  induction n with
  | zero => intro s h; simp [quadLoop]
  | succ k ih =>
    intro s h
    unfold quadLoop
    rw [List.range_succ k, List.foldl_append]
    simp only [List.foldl_cons, List.foldl_nil]
    have hq : ((List.range k).foldl (fun st i => addQuad st (A i) (B i) (C i) (D i) flip) s) =
        quadLoop s k A B C D flip := rfl
    rw [hq, assembled_addQuad _ _ _ _ _ (wf_quadLoop _ _ _ _ _ _ h), ih s h]
    simp [List.append_assoc]

theorem fanStep_assembled (c : ℕ) (ring : List Pt3) (n : ℕ) (center : Pt3)
    (st : MeshState) (k : ℕ) (hwf : st.wf) (hc : c < st.verts.length)
    (hg : st.verts.getD c (0, 0, 0) = center) :
    assembledTriangles (fanStep c ring n st k) =
      assembledTriangles st ++
        [(center, ring.getD k (0, 0, 0), ring.getD ((k + 1) % n) (0, 0, 0))] := by
  have hverts : (fanStep c ring n st k).verts =
      st.verts ++ [ring.getD k (0, 0, 0), ring.getD ((k + 1) % n) (0, 0, 0)] := rfl
  have hfaces : (fanStep c ring n st k).faces =
      st.faces ++ [(c, st.verts.length, st.verts.length + 1)] := rfl
  unfold assembledTriangles
  rw [hverts, hfaces, List.map_append]
  congr 1
  · refine List.map_eq_map_iff.mpr ?_
    intro f hf
    obtain ⟨h1, h2, h3⟩ := hwf f hf
    rw [getD_append_of_lt h1, getD_append_of_lt h2, getD_append_of_lt h3]
  · simp only [List.map_cons, List.map_nil]
    rw [getD_append_of_lt hc, hg, getD_append_self (le_refl _),
      getD_append_self (by omega)]
    simp

theorem fanFold_assembled (c : ℕ) (ring : List Pt3) (n : ℕ) (center : Pt3) :
    ∀ (m : ℕ) (st : MeshState), st.wf → c < st.verts.length →
      st.verts.getD c (0, 0, 0) = center →
      ((List.range m).foldl (fanStep c ring n) st).wf ∧
      c < ((List.range m).foldl (fanStep c ring n) st).verts.length ∧
      ((List.range m).foldl (fanStep c ring n) st).verts.getD c (0, 0, 0) = center ∧
      assembledTriangles ((List.range m).foldl (fanStep c ring n) st) =
        assembledTriangles st ++
          (List.range m).map
            (fun i => (center, ring.getD i (0, 0, 0), ring.getD ((i + 1) % n) (0, 0, 0))) := by
  intro m
  induction m with
  | zero =>
    intro st h hc hg
    exact ⟨h, hc, hg, by simp⟩
  | succ k ih =>
    intro st h hc hg
    rw [List.range_succ k, List.foldl_append]
    simp only [List.foldl_cons, List.foldl_nil]
    obtain ⟨iwf, ic, ig, ia⟩ := ih st h hc hg
    have hlen : (fanStep c ring n ((List.range k).foldl (fanStep c ring n) st) k).verts.length
        = ((List.range k).foldl (fanStep c ring n) st).verts.length + 2 := by
      simp [fanStep]
    refine ⟨wf_fanStep k iwf ic, by omega, ?_, ?_⟩
    · show ((((List.range k).foldl (fanStep c ring n) st)).verts ++ _).getD c (0, 0, 0) = center
      rw [getD_append_of_lt ic, ig]
    · rw [fanStep_assembled c ring n center _ k iwf ic ig, ia]
      simp [List.append_assoc]

theorem assembled_addFan {s : MeshState} (center : Pt3) (ring : List Pt3) (n : ℕ)
    (h : s.wf) :
    assembledTriangles (addFan s center ring n) =
      assembledTriangles s ++
        (List.range n).map
          (fun i => (center, ring.getD i (0, 0, 0), ring.getD ((i + 1) % n) (0, 0, 0))) := by
  unfold addFan
  have hs1wf : ({ s with verts := s.verts ++ [center] } : MeshState).wf := by
    intro f hf
    obtain ⟨h1, h2, h3⟩ := h f hf
    refine ⟨?_, ?_, ?_⟩ <;> simp only [List.length_append, List.length_cons, List.length_nil] <;> omega
  have hc : s.verts.length < (s.verts ++ [center]).length := by simp
  have hg : (s.verts ++ [center]).getD s.verts.length (0, 0, 0) = center := by
    rw [getD_append_self (le_refl _)]
    simp
  have hfold := (fanFold_assembled s.verts.length ring n center n _ hs1wf hc hg).2.2.2
  rw [hfold]
  congr 1
  exact assembled_extend s [center] h

/-! ### Profile generator facts -/

theorem create_circle_profile_length (d : ℝ) (n : ℕ) :
    (create_circle_profile d n).length = n := by
  simp only [create_circle_profile, List.length_map, List.length_range]

theorem create_lobed_profile_length (d : ℝ) (l : ℕ) (r : ℝ) (n : ℕ) :
    (create_lobed_profile d l r n).length = n := by
  simp only [create_lobed_profile, List.length_map, List.length_range]

theorem create_polygon_profile_length (d : ℝ) (sides n : ℕ) :
    (create_polygon_profile d sides n).length = n := by
  simp only [create_polygon_profile, List.length_map, List.length_range]

theorem create_d_shaft_profile_length (d f : ℝ) (n : ℕ) :
    (create_d_shaft_profile d f n).length = n := by
  simp only [create_d_shaft_profile, List.length_map, List.length_range]

theorem create_circle_profile_getD (d : ℝ) (n i : ℕ) (h : i < n) :
    (create_circle_profile d n).getD i (0, 0) =
      (d / 2 * Real.cos (2 * Real.pi * i / n), d / 2 * Real.sin (2 * Real.pi * i / n)) := by
  unfold create_circle_profile
  rw [List.getD_eq_getElem _ _ (by
    simp only [List.length_map, List.length_range]; exact h)]
  simp only [List.getElem_map, List.getElem_range]

theorem create_lobed_profile_getD (d : ℝ) (l : ℕ) (r : ℝ) (n i : ℕ) (h : i < n) :
    (create_lobed_profile d l r n).getD i (0, 0) =
      (((d / 2 + d / 2 * (1 - 0.6 * r)) / 2 +
          (d / 2 - d / 2 * (1 - 0.6 * r)) / 2 * Real.cos ((l : ℝ) * (2 * Real.pi * i / n))) *
          Real.cos (2 * Real.pi * i / n),
        ((d / 2 + d / 2 * (1 - 0.6 * r)) / 2 +
          (d / 2 - d / 2 * (1 - 0.6 * r)) / 2 * Real.cos ((l : ℝ) * (2 * Real.pi * i / n))) *
          Real.sin (2 * Real.pi * i / n)) := by
  unfold create_lobed_profile
  rw [List.getD_eq_getElem _ _ (by
    simp only [List.length_map, List.length_range]; exact h)]
  simp only [List.getElem_map, List.getElem_range]

theorem create_polygon_profile_getD (d : ℝ) (sides n i : ℕ) (h : i < n) :
    (create_polygon_profile d sides n).getD i (0, 0) =
      (d / 2 / Real.cos (fmod (2 * Real.pi * i / n) (2 * Real.pi / sides) -
            2 * Real.pi / sides / 2) * Real.cos (2 * Real.pi * i / n),
        d / 2 / Real.cos (fmod (2 * Real.pi * i / n) (2 * Real.pi / sides) -
            2 * Real.pi / sides / 2) * Real.sin (2 * Real.pi * i / n)) := by
  unfold create_polygon_profile
  rw [List.getD_eq_getElem _ _ (by
    simp only [List.length_map, List.length_range]; exact h)]
  simp only [List.getElem_map, List.getElem_range]

theorem create_d_shaft_profile_getD (d f : ℝ) (n i : ℕ) (h : i < n) :
    (create_d_shaft_profile d f n).getD i (0, 0) =
      (if d / 2 * Real.cos (2 * Real.pi * i / n) > f - d / 2 then
        (f - d / 2, (f - d / 2) * Real.tan (2 * Real.pi * i / n))
      else
        (d / 2 * Real.cos (2 * Real.pi * i / n), d / 2 * Real.sin (2 * Real.pi * i / n))) := by
  unfold create_d_shaft_profile
  rw [List.getD_eq_getElem _ _ (by
    simp only [List.length_map, List.length_range]; exact h)]
  simp only [List.getElem_map, List.getElem_range]

/-- C5: every D-shaft profile point has x-coordinate at most
`flat_to_opposite - diameter / 2`, and every circle sample whose x-coordinate
exceeds that cut distance is replaced by the flat-plane point
`(cut, cut * tan angle)`. -/
theorem d_shaft_flat_plane_bound (diameter flat_to_opposite : ℝ) (n i : ℕ) (h : i < n) :
    ((create_d_shaft_profile diameter flat_to_opposite n).getD i (0, 0)).1 ≤
        flat_to_opposite - diameter / 2 ∧
      (diameter / 2 * Real.cos (2 * Real.pi * i / n) > flat_to_opposite - diameter / 2 →
        (create_d_shaft_profile diameter flat_to_opposite n).getD i (0, 0) =
          (flat_to_opposite - diameter / 2,
            (flat_to_opposite - diameter / 2) * Real.tan (2 * Real.pi * i / n))) := by
  rw [create_d_shaft_profile_getD diameter flat_to_opposite n i h]
  constructor
  · split
    · exact le_refl _
    · rename_i hle
      push_neg at hle
      exact hle
  · intro hgt
    rw [if_pos hgt]

/-- C5 witness: at diameter 6, flat 4.5, 4 segments, point 0 the flat-plane
bound holds. -/
theorem d_shaft_flat_plane_bound_witness :
    ((create_d_shaft_profile 6 4.5 4).getD 0 (0, 0)).1 ≤ 4.5 - 6 / 2 :=
  (d_shaft_flat_plane_bound 6 4.5 4 0 (by norm_num)).1

/-- C8: the radial inset scaling of the fillet ring loops is
division-guarded: at planar magnitude at most 0.001 the scale factor is the
constant 1; above the guard the magnitude is nonzero and the scale times the
magnitude recovers `mag - inset` (an honest division). -/
theorem insetScale_division_guard (q : Pt2) (inset : ℝ) :
    (Real.sqrt (q.1 ^ 2 + q.2 ^ 2) ≤ 0.001 → insetScale q inset = 1) ∧
      (0.001 < Real.sqrt (q.1 ^ 2 + q.2 ^ 2) →
        Real.sqrt (q.1 ^ 2 + q.2 ^ 2) ≠ 0 ∧
          insetScale q inset * Real.sqrt (q.1 ^ 2 + q.2 ^ 2) =
            Real.sqrt (q.1 ^ 2 + q.2 ^ 2) - inset) := by
  constructor
  · intro hle
    unfold insetScale
    rw [if_neg (by simpa using not_lt.mpr hle)]
  · intro hgt
    have hne : Real.sqrt (q.1 ^ 2 + q.2 ^ 2) ≠ 0 := by positivity
    refine ⟨hne, ?_⟩
    unfold insetScale
    rw [if_pos (by simpa using hgt)]
    field_simp

/-- C8 witness: the point on the axis gets scale factor 1 (no division), and
a point of magnitude 5 gets the honest quotient. -/
theorem insetScale_division_guard_witness :
    insetScale ((0 : ℝ), (0 : ℝ)) 7 = 1 :=
  (insetScale_division_guard (0, 0) 7).1 (by norm_num)

theorem fmod_nonneg (a b : ℝ) (hb : 0 < b) : 0 ≤ fmod a b := by
  unfold fmod
  have h1 : ((⌊a / b⌋ : ℤ) : ℝ) ≤ a / b := Int.floor_le _
  have h1' : ((⌊a / b⌋ : ℤ) : ℝ) * b ≤ a := (le_div_iff hb).mp h1
  nlinarith

theorem fmod_lt (a b : ℝ) (hb : 0 < b) : fmod a b < b := by
  unfold fmod
  have h2 : a / b < (⌊a / b⌋ : ℤ) + 1 := Int.lt_floor_add_one _
  have h2' : a < (((⌊a / b⌋ : ℤ) : ℝ) + 1) * b := (div_lt_iff hb).mp h2
  nlinarith

/-- C4: every profile generator returns exactly `N` points; point `i` is a
positive radius times the unit vector at angle `2*pi*i/N`, and those angles
are strictly increasing in `i`. -/
theorem profile_count_and_angle_order
    (N : ℕ) (hN : 3 ≤ N) (diameter : ℝ) (hd : 0 < diameter)
    (lobes : ℕ) (ratio : ℝ) (hr0 : 0 ≤ ratio) (hr1 : ratio ≤ 1)
    (sides : ℕ) (hs : 3 ≤ sides)
    (flat_to_opposite : ℝ) (hcut : 0 < flat_to_opposite - diameter / 2) :
    ((create_circle_profile diameter N).length = N ∧
      (create_lobed_profile diameter lobes ratio N).length = N ∧
      (create_polygon_profile diameter sides N).length = N ∧
      (create_d_shaft_profile diameter flat_to_opposite N).length = N) ∧
    (∀ i, i < N →
      (∃ ρ > (0 : ℝ), (create_circle_profile diameter N).getD i (0, 0) =
        (ρ * Real.cos (2 * Real.pi * i / N), ρ * Real.sin (2 * Real.pi * i / N))) ∧
      (∃ ρ > (0 : ℝ), (create_lobed_profile diameter lobes ratio N).getD i (0, 0) =
        (ρ * Real.cos (2 * Real.pi * i / N), ρ * Real.sin (2 * Real.pi * i / N))) ∧
      (∃ ρ > (0 : ℝ), (create_polygon_profile diameter sides N).getD i (0, 0) =
        (ρ * Real.cos (2 * Real.pi * i / N), ρ * Real.sin (2 * Real.pi * i / N))) ∧
      (∃ ρ > (0 : ℝ), (create_d_shaft_profile diameter flat_to_opposite N).getD i (0, 0) =
        (ρ * Real.cos (2 * Real.pi * i / N), ρ * Real.sin (2 * Real.pi * i / N)))) ∧
    (∀ i j : ℕ, i < j → j < N → 2 * Real.pi * i / N < 2 * Real.pi * j / N) := by
  refine ⟨⟨create_circle_profile_length _ _, create_lobed_profile_length _ _ _ _,
    create_polygon_profile_length _ _ _, create_d_shaft_profile_length _ _ _⟩, ?_, ?_⟩
  · intro i hi
    refine ⟨⟨diameter / 2, by positivity, create_circle_profile_getD _ _ _ hi⟩, ?_, ?_, ?_⟩
    · refine ⟨(diameter / 2 + diameter / 2 * (1 - 0.6 * ratio)) / 2 +
        (diameter / 2 - diameter / 2 * (1 - 0.6 * ratio)) / 2 *
          Real.cos ((lobes : ℝ) * (2 * Real.pi * i / N)), ?_,
        create_lobed_profile_getD _ _ _ _ _ hi⟩
      have hc1 : -1 ≤ Real.cos ((lobes : ℝ) * (2 * Real.pi * i / N)) := Real.neg_one_le_cos _
      have hc2 : Real.cos ((lobes : ℝ) * (2 * Real.pi * i / N)) ≤ 1 := Real.cos_le_one _
      have hB : 0 ≤ (diameter / 2 - diameter / 2 * (1 - 0.6 * ratio)) / 2 := by nlinarith
      have hBc := mul_le_mul_of_nonneg_left hc1 hB
      nlinarith [hBc, mul_le_of_le_one_right hd.le hr1]
    · have hsides : (0 : ℝ) < (sides : ℝ) := by
        have : (3 : ℝ) ≤ (sides : ℝ) := by exact_mod_cast hs
        linarith
      have hp : (0 : ℝ) < 2 * Real.pi / sides := by positivity
      have hlow : 0 ≤ fmod (2 * Real.pi * i / N) (2 * Real.pi / sides) :=
        fmod_nonneg _ _ hp
      have hhigh : fmod (2 * Real.pi * i / N) (2 * Real.pi / sides) < 2 * Real.pi / sides :=
        fmod_lt _ _ hp
      have hbound : 2 * Real.pi / (sides : ℝ) / 2 ≤ Real.pi / 3 := by
        have hpi : (0 : ℝ) < Real.pi := Real.pi_pos
        have h3 : (3 : ℝ) ≤ (sides : ℝ) := by exact_mod_cast hs
        rw [div_div, div_le_div_iff (by positivity) (by norm_num)]
        nlinarith [mul_nonneg hpi.le (by linarith : (0 : ℝ) ≤ (sides : ℝ) - 3)]
      have hcos : 0 < Real.cos (fmod (2 * Real.pi * i / N) (2 * Real.pi / sides) -
          2 * Real.pi / sides / 2) := by
        apply Real.cos_pos_of_mem_Ioo
        constructor
        · have hpi : (0 : ℝ) < Real.pi := Real.pi_pos
          have : 0 < 2 * Real.pi / (sides : ℝ) / 2 := by positivity
          nlinarith [hbound]
        · have hpi : (0 : ℝ) < Real.pi := Real.pi_pos
          nlinarith [hbound]
      exact ⟨diameter / 2 / Real.cos (fmod (2 * Real.pi * i / N) (2 * Real.pi / sides) -
          2 * Real.pi / sides / 2), by positivity,
        create_polygon_profile_getD _ _ _ _ hi⟩
    · rw [create_d_shaft_profile_getD _ _ _ _ hi]
      by_cases hgt : diameter / 2 * Real.cos (2 * Real.pi * i / N) >
          flat_to_opposite - diameter / 2
      · rw [if_pos hgt]
        have hcos : 0 < Real.cos (2 * Real.pi * i / N) := by
          by_contra hle
          push_neg at hle
          nlinarith
        refine ⟨(flat_to_opposite - diameter / 2) / Real.cos (2 * Real.pi * i / N),
          by positivity, ?_⟩
        have hne : Real.cos (2 * Real.pi * i / N) ≠ 0 := ne_of_gt hcos
        rw [Prod.mk.injEq]
        constructor
        · field_simp
          ring
        · rw [Real.tan_eq_sin_div_cos]
          field_simp
      · rw [if_neg hgt]
        exact ⟨diameter / 2, by positivity, rfl⟩
  · intro i j hij hj
    have hNpos : (0 : ℝ) < (N : ℝ) := by
      have : (3 : ℝ) ≤ (N : ℝ) := by exact_mod_cast hN
      linarith
    have hij' : (i : ℝ) < (j : ℝ) := by exact_mod_cast hij
    have h2pi : (0 : ℝ) < 2 * Real.pi := by positivity
    rw [div_lt_div_iff hNpos hNpos]
    nlinarith [mul_pos (mul_pos h2pi (sub_pos.mpr hij')) hNpos]

/-- C6: generation is a pure function of the parameter aggregate: equal
parameters give the identical mesh state, assembled triangle soup, and
triangle count.  (The embedding is pure because the source has no mutable
state outside the per-call accumulators: `NUT_TYPES` is only read, and
`all_vertices` / `all_faces` are created afresh inside every call.) -/
theorem generate_knob_mesh_deterministic (p q : KnobParams) (h : p = q) :
    generate_knob_mesh p = generate_knob_mesh q ∧
      assembledTriangles (generate_knob_mesh p) =
        assembledTriangles (generate_knob_mesh q) ∧
      (generate_knob_mesh p).faces.length = (generate_knob_mesh q).faces.length := by
  subst h
  exact ⟨rfl, rfl, rfl⟩

/-- C6 witness: two calls at the plain parameters agree. -/
theorem generate_knob_mesh_deterministic_witness :
    generate_knob_mesh pPlain = generate_knob_mesh pPlain :=
  (generate_knob_mesh_deterministic pPlain pPlain rfl).1

theorem body_profile_length (p : KnobParams) :
    (body_profile p).length = p.segments := by
  unfold body_profile
  cases p.knob_style with
  | Lobed => exact create_lobed_profile_length _ _ _ _
  | Round =>
    dsimp only
    by_cases h : p.ridges > 0
    · rw [if_pos h]
      exact create_lobed_profile_length _ _ _ _
    · rw [if_neg h]
      exact create_circle_profile_length _ _

theorem shaft_profile_length (p : KnobParams) :
    (shaft_profile p).length = p.segments := by
  unfold shaft_profile
  rcases p.shaft_type
  · exact create_d_shaft_profile_length _ _ _
  · exact create_circle_profile_length _ _
  · exact create_circle_profile_length _ _

theorem mem_map_ring_z {α : Type} (prof : List α) (f g : α → ℝ) (z : ℝ) :
    ∀ pt ∈ prof.map (fun q => (f q, g q, z)), pt.2.2 = z := by
  intro pt hpt
  simp only [List.mem_map] at hpt
  obtain ⟨a, _, rfl⟩ := hpt
  rfl

/-- C9: every ring placed in the outer shell's ring stack has exactly
`segments` points, all sharing one z-coordinate, for every parameter
combination. -/
theorem outerRings_ring_shape (p : KnobParams) :
    ∀ ring ∈ outerRings p,
      ring.length = p.segments ∧ ∃ z : ℝ, ∀ q ∈ ring, q.2.2 = z := by
  intro ring hring
  have hbody := body_profile_length p
  have hboss := create_circle_profile_length p.boss_diameter p.segments
  unfold outerRings at hring
  simp only [List.mem_append, List.singleton_append, List.mem_cons] at hring
  rcases hring with ((h | h) | h | h) | h
  · split at h
    · simp only [List.mem_cons, List.not_mem_nil, or_false] at h
      rcases h with rfl | rfl
      · exact ⟨by rw [List.length_map, hboss], 0, mem_map_ring_z _ _ _ _⟩
      · exact ⟨by rw [List.length_map, hboss], p.boss_height, mem_map_ring_z _ _ _ _⟩
    · simp at h
  · split at h
    · simp only [List.mem_map] at h
      obtain ⟨sidx, _, rfl⟩ := h
      exact ⟨by rw [List.length_map, hbody], _, mem_map_ring_z _ _ _ _⟩
    · simp only [List.mem_cons, List.not_mem_nil, or_false] at h
      subst h
      exact ⟨by rw [List.length_map, hbody], _, mem_map_ring_z _ _ _ _⟩
  · subst h
    exact ⟨by rw [List.length_map, hbody], _, mem_map_ring_z _ _ _ _⟩
  · simp at h
  · by_cases hd : p.is_dome = true
    · rw [if_pos hd] at h
      simp only [List.mem_map] at h
      obtain ⟨sidx, _, rfl⟩ := h
      exact ⟨by rw [List.length_map, hbody], _, mem_map_ring_z _ _ _ _⟩
    · rw [if_neg hd] at h
      by_cases ht : p.top_fillet_radius > 0 ∨ p.top_fillet_height > 0
      · rw [if_pos ht] at h
        simp only [List.mem_map] at h
        obtain ⟨sidx, _, rfl⟩ := h
        exact ⟨by rw [List.length_map, hbody], _, mem_map_ring_z _ _ _ _⟩
      · rw [if_neg ht] at h
        simp at h

/-- With no boss, no fillets and no dome, the ring stack is just the base
ring at z = 0 and the top ring at z = `knob_height`. -/
theorem outerRings_plain (p : KnobParams) (hh : 0 ≤ p.knob_height)
    (hboss : p.boss_height = 0) (hbfr : p.bottom_fillet_radius = 0)
    (hbfh : p.bottom_fillet_height = 0) (hdome : p.is_dome = false)
    (htfr : p.top_fillet_radius = 0) (htfh : p.top_fillet_height = 0) :
    outerRings p = [(body_profile p).map (fun q => (q.1, q.2, (0 : ℝ))),
      (body_profile p).map (fun q => (q.1, q.2, p.knob_height))] := by
  unfold outerRings zBase
  rw [hboss, hbfr, hbfh, hdome, htfr, htfh]
  norm_num
  intro a b _
  exact hh

/-- C9 witness: the base ring of the plain knob has the stated shape. -/
theorem outerRings_ring_shape_witness :
    ((body_profile pPlain).map (fun q => (q.1, q.2, (0 : ℝ)))).length = pPlain.segments ∧
      ∃ z : ℝ, ∀ q ∈ (body_profile pPlain).map (fun q => (q.1, q.2, (0 : ℝ))), q.2.2 = z :=
  outerRings_ring_shape pPlain _ (by
    rw [outerRings_plain pPlain (by norm_num [pPlain]) (by norm_num [pPlain])
      (by norm_num [pPlain]) (by norm_num [pPlain]) (by norm_num [pPlain])
      (by norm_num [pPlain]) (by norm_num [pPlain])]
    exact List.mem_cons_self _ _)

theorem stitchedShell_faces_length (p : KnobParams) :
    (stitchedShell p).faces.length = 2 * p.segments * ((outerRings p).length - 1) := by
  unfold stitchedShell
  refine (foldl_range_faces_length _ (2 * p.segments) ?_ _ _).trans ?_
  · intro st i
    exact stitchRingPair_faces_length st _ _ p.segments false
  · simp [Nat.mul_comm]

theorem stitchedShell_verts_length (p : KnobParams) :
    (stitchedShell p).verts.length = 4 * p.segments * ((outerRings p).length - 1) := by
  unfold stitchedShell
  refine (foldl_range_verts_length _ (4 * p.segments) ?_ _ _).trans ?_
  · intro st i
    exact stitchRingPair_verts_length st _ _ p.segments false
  · simp [Nat.mul_comm]

theorem wf_stitchedShell (p : KnobParams) : (stitchedShell p).wf := by
  unfold stitchedShell
  refine foldl_invariant MeshState.wf _ ?_ _ _ ?_
  · intro st i hst
    exact wf_stitchRingPair _ _ _ _ hst
  · intro f hf
    simp at hf

/-- In the no-dome, no-recess, closed-top (blind round-hole) configuration the
top closure is the flat apex fan, and `z_shaft_top_limit` is `hole_depth`. -/
theorem topClosure_plain_blind (p : KnobParams) (s : MeshState)
    (hdome : p.is_dome = false) (hrec : p.recess_depth = 0)
    (hthrough : p.through_hole = false)
    (hopen : ¬(p.shaft_type = ShaftType.NutTrap ∧ p.nut_location = NutLocation.Top)) :
    topClosure p s =
      (addFan s (0, 0, zTopMesh p) (topOuterRing p) p.segments, p.hole_depth) := by
  unfold topClosure
  rw [hdome, hrec, hthrough]
  norm_num
  intro h1 h2
  exact absurd ⟨h1, h2⟩ hopen

theorem nutTrapSection_nonNutTrap (p : KnobParams) (s : MeshState)
    (h : p.shaft_type ≠ ShaftType.NutTrap) : nutTrapSection p s = s := by
  unfold nutTrapSection
  rcases hs : p.shaft_type
  · cases p.nut_info <;> rfl
  · cases p.nut_info <;> rfl
  · exact absurd hs h

theorem boreZBot_nonNutTrap (p : KnobParams) (h : p.shaft_type ≠ ShaftType.NutTrap) :
    boreZBot p = 0 := by
  unfold boreZBot
  rw [if_neg]
  rintro ⟨h1, _⟩
  exact h h1

/-- Blind non-nut-trap bore: 2N wall triangles plus the N-triangle apex fan. -/
theorem boreSection_blind_nonNutTrap_faces (p : KnobParams) (zl : ℝ) (s : MeshState)
    (hthrough : p.through_hole = false) (hshaft : p.shaft_type ≠ ShaftType.NutTrap)
    (hz : p.hole_depth > boreZBot p) :
    (boreSection p zl s).faces.length = s.faces.length + 3 * p.segments := by
  unfold boreSection
  rw [hthrough]
  simp only [Bool.false_eq_true, if_false]
  rw [if_pos hz, if_pos ⟨trivial, hshaft⟩, addFan_faces_length, stitchRingPair_faces_length]
  ring

/-- Blind nut-trap bore: only the 2N wall triangles — the apex fan that would
close the bore top is skipped because `shaft_type` is `Nut Trap`. -/
theorem boreSection_blind_nutTrap_faces (p : KnobParams) (zl : ℝ) (s : MeshState)
    (hthrough : p.through_hole = false) (hshaft : p.shaft_type = ShaftType.NutTrap)
    (hz : p.hole_depth > boreZBot p) :
    (boreSection p zl s).faces.length = s.faces.length + 2 * p.segments ∧
      (boreSection p zl s).verts.length = s.verts.length + 4 * p.segments := by
  unfold boreSection
  rw [hthrough]
  simp only [Bool.false_eq_true, if_false]
  rw [if_pos hz, if_neg (by rintro ⟨_, hne⟩; exact hne hshaft)]
  exact ⟨stitchRingPair_faces_length _ _ _ _ _, stitchRingPair_verts_length _ _ _ _ _⟩

theorem bottomSection_faces_length (p : KnobParams) (s : MeshState) :
    (bottomSection p s).faces.length = s.faces.length + 2 * p.segments := by
  unfold bottomSection
  split <;> exact stitchRingPairRev_faces_length _ _ _ _

/-- Shared count computation for the plain round blind-bore configuration. -/
theorem plain_round_blind_count_aux (p : KnobParams)
    (htfr : p.top_fillet_radius = 0) (htfh : p.top_fillet_height = 0)
    (hbfr : p.bottom_fillet_radius = 0) (hbfh : p.bottom_fillet_height = 0)
    (hboss : p.boss_height = 0) (hdome : p.is_dome = false)
    (hrec : p.recess_depth = 0) (hshaft : p.shaft_type = ShaftType.RoundHole)
    (hthrough : p.through_hole = false)
    (hdepth : 0 < p.hole_depth) (hdh : p.hole_depth < p.knob_height) :
    (generate_knob_mesh p).faces.length = 8 * p.segments := by
  have hne : p.shaft_type ≠ ShaftType.NutTrap := by rw [hshaft]; intro hc; cases hc
  have hh : (0 : ℝ) ≤ p.knob_height := le_of_lt (lt_trans hdepth hdh)
  have hOR := outerRings_plain p hh hboss hbfr hbfh hdome htfr htfh
  have h1 : (stitchedShell p).faces.length = 2 * p.segments := by
    rw [stitchedShell_faces_length, hOR]
    simp
  have hTC := topClosure_plain_blind p (stitchedShell p) hdome hrec hthrough
    (by rw [hshaft]; rintro ⟨hc, _⟩; cases hc)
  show (bottomSection p (boreSection p (topClosure p (stitchedShell p)).2
      (nutTrapSection p (topClosure p (stitchedShell p)).1))).faces.length = 8 * p.segments
  rw [hTC]
  dsimp only
  rw [nutTrapSection_nonNutTrap p _ hne, bottomSection_faces_length,
    boreSection_blind_nonNutTrap_faces p _ _ hthrough hne
      (by rw [boreZBot_nonNutTrap p hne]; exact hdepth),
    addFan_faces_length, h1]
  ring

/-- C1 (amended): the plain round blind-bore knob produces exactly
`8 * segments` triangles: `2N` wall + `N` top fan + `2N` bore wall + `N` bore
cap + `2N` bottom annulus (the bottom annulus is quad-stitched, hence `2N`,
not the claimed `N`). -/
theorem plain_round_blind_triangle_count (p : KnobParams)
    (hstyle : p.knob_style = KnobStyle.Round) (hridges : p.ridges = 0)
    (htfr : p.top_fillet_radius = 0) (htfh : p.top_fillet_height = 0)
    (hbfr : p.bottom_fillet_radius = 0) (hbfh : p.bottom_fillet_height = 0)
    (hboss : p.boss_height = 0) (hdome : p.is_dome = false)
    (hrec : p.recess_depth = 0) (hshaft : p.shaft_type = ShaftType.RoundHole)
    (hthrough : p.through_hole = false)
    (hdepth : 0 < p.hole_depth) (hdh : p.hole_depth < p.knob_height) :
    (generate_knob_mesh p).faces.length = 8 * p.segments :=
  plain_round_blind_count_aux p htfr htfh hbfr hbfh hboss hdome hrec hshaft hthrough
    hdepth hdh

/-- C1 witness: the amended count at the concrete plain parameters. -/
theorem plain_round_blind_triangle_count_witness :
    (generate_knob_mesh pPlain).faces.length = 8 * pPlain.segments :=
  plain_round_blind_triangle_count pPlain rfl rfl rfl rfl rfl rfl rfl rfl rfl rfl rfl
    (by norm_num [pPlain]) (by norm_num [pPlain])

/-- C1 counterexample: at one segment the plain round blind-bore knob has 8
triangles, not the `7 * N = 7` the claim states (the discrepancy is the
quad-stitched bottom annulus, 2N triangles rather than N). -/
theorem plain_round_blind_triangle_count_counterexample :
    (generate_knob_mesh pPlain).faces.length ≠ 7 * pPlain.segments := by
  rw [plain_round_blind_count_aux pPlain rfl rfl rfl rfl rfl rfl rfl rfl rfl
    (by norm_num [pPlain]) (by norm_num [pPlain])]
  norm_num [pPlain]

theorem wf_topClosure (p : KnobParams) (s : MeshState) (h : s.wf) :
    (topClosure p s).1.wf := by
  unfold topClosure
  by_cases hd : p.is_dome = true
  · rw [if_pos hd]
    dsimp only
    split
    · exact wf_addFan _ _ _ h
    · exact h
  · rw [if_neg hd]
    by_cases hr : p.recess_depth > 0
    · rw [if_pos hr]
      dsimp only
      split
      · refine wf_addFan _ _ _ ?_
        refine foldl_invariant MeshState.wf _
          (fun st i hst => wf_stitchRingPair _ _ _ _ hst) _ _ ?_
        exact wf_stitchRingPair _ _ _ _ h
      · refine foldl_invariant MeshState.wf _
          (fun st i hst => wf_stitchRingPair _ _ _ _ hst) _ _ ?_
        exact wf_stitchRingPair _ _ _ _ h
    · rw [if_neg hr]
      dsimp only
      split
      · exact wf_stitchRingPair _ _ _ _ h
      · exact wf_addFan _ _ _ h

theorem wf_nutTrapSection (p : KnobParams) (s : MeshState) (h : s.wf) :
    (nutTrapSection p s).wf := by
  unfold nutTrapSection
  rcases p.shaft_type
  · cases p.nut_info <;> exact h
  · cases p.nut_info <;> exact h
  · cases p.nut_info
    · exact h
    · dsimp only
      split
      · exact wf_stitchRingPairRev _ _ _ (wf_stitchRingPair _ _ _ _ h)
      · exact h

theorem wf_boreSection (p : KnobParams) (zl : ℝ) (s : MeshState) (h : s.wf) :
    (boreSection p zl s).wf := by
  unfold boreSection
  dsimp only
  split_ifs <;>
    first
      | exact h
      | exact wf_stitchRingPair _ _ _ _ h
      | exact wf_addFan _ _ _ (wf_stitchRingPair _ _ _ _ h)

theorem wf_bottomSection (p : KnobParams) (s : MeshState) (h : s.wf) :
    (bottomSection p s).wf := by
  unfold bottomSection
  split <;> exact wf_stitchRingPairRev _ _ _ h

theorem wf_generate (p : KnobParams) : (generate_knob_mesh p).wf :=
  wf_bottomSection p _ (wf_boreSection p _ _ (wf_nutTrapSection p _
    (wf_topClosure p _ (wf_stitchedShell p))))

/-- C10: every emitted face references only vertex indices below the final
vertex count, for every parameter combination, so the final assembly loop's
lookups `np_verts[face[j]]` are always in bounds. -/
theorem generate_faces_in_bounds (p : KnobParams) :
    ∀ f ∈ (generate_knob_mesh p).faces,
      f.1 < (generate_knob_mesh p).verts.length ∧
        f.2.1 < (generate_knob_mesh p).verts.length ∧
        f.2.2 < (generate_knob_mesh p).verts.length :=
  wf_generate p

/-- C10 witness: the first face of the plain mesh is in bounds. -/
theorem generate_faces_in_bounds_witness :
    ((generate_knob_mesh pPlain).faces.getD 0 (0, 0, 0)).1 <
        (generate_knob_mesh pPlain).verts.length ∧
      ((generate_knob_mesh pPlain).faces.getD 0 (0, 0, 0)).2.1 <
        (generate_knob_mesh pPlain).verts.length ∧
      ((generate_knob_mesh pPlain).faces.getD 0 (0, 0, 0)).2.2 <
        (generate_knob_mesh pPlain).verts.length := by
  have h8 := plain_round_blind_count_aux pPlain rfl rfl rfl rfl rfl rfl rfl rfl rfl
    (by norm_num [pPlain]) (by norm_num [pPlain])
  have hlen : 0 < (generate_knob_mesh pPlain).faces.length := by
    rw [h8]
    norm_num [pPlain]
  refine generate_faces_in_bounds pPlain _ ?_
  rw [List.getD_eq_getElem _ _ hlen]
  exact List.getElem_mem hlen

theorem quadLoop_verts (A B C D : ℕ → Pt3) (flip : Bool) :
    ∀ (n : ℕ) (s : MeshState),
      (quadLoop s n A B C D flip).verts =
        s.verts ++ (List.range n).flatMap (fun i => [A i, B i, C i, D i]) := by
  intro n
  induction n with
  | zero => intro s; simp [quadLoop]
  | succ k ih =>
    intro s
    unfold quadLoop
    rw [List.range_succ k, List.foldl_append]
    simp only [List.foldl_cons, List.foldl_nil]
    have hq : ((List.range k).foldl (fun st i => addQuad st (A i) (B i) (C i) (D i) flip) s) =
        quadLoop s k A B C D flip := rfl
    rw [hq]
    show (quadLoop s k A B C D flip).verts ++ [A k, B k, C k, D k] =
      s.verts ++ (List.range k ++ [k]).flatMap (fun i => [A i, B i, C i, D i])
    rw [ih s]
    simp [List.append_assoc]

theorem stitchRingPair_verts (s : MeshState) (r1 r2 : List Pt3) (n : ℕ) (flip : Bool) :
    (stitchRingPair s r1 r2 n flip).verts =
      s.verts ++ (List.range n).flatMap (fun i =>
        [r1.getD i (0, 0, 0), r1.getD ((i + 1) % n) (0, 0, 0),
          r2.getD ((i + 1) % n) (0, 0, 0), r2.getD i (0, 0, 0)]) :=
  quadLoop_verts _ _ _ _ flip n s

/-- C3 (amended): for a blind bore reaching above its base
(`hole_depth > z_bot`), the bore builder emits the apex fan closing the bore
top only when the shaft type is not `Nut Trap`; for `Nut Trap` it emits only
the `2N` wall triangles (and their `4N` corner vertices), leaving the bore
top unclosed. -/
theorem bore_top_fan_only_non_nutTrap (p : KnobParams) (zl : ℝ) (s : MeshState)
    (hthrough : p.through_hole = false) (hz : p.hole_depth > boreZBot p) :
    (p.shaft_type = ShaftType.NutTrap →
      (boreSection p zl s).faces.length = s.faces.length + 2 * p.segments ∧
        (boreSection p zl s).verts.length = s.verts.length + 4 * p.segments) ∧
      (p.shaft_type ≠ ShaftType.NutTrap →
        (boreSection p zl s).faces.length = s.faces.length + 3 * p.segments) := by
  constructor
  · intro hshaft
    exact boreSection_blind_nutTrap_faces p zl s hthrough hshaft hz
  · intro hshaft
    exact boreSection_blind_nonNutTrap_faces p zl s hthrough hshaft hz

theorem pNutTrap_boreZBot : boreZBot pNutTrap = 2.6 := by
  unfold boreZBot nutHeight
  norm_num [pNutTrap, pPlain, M3Nut]

/-- C3 witness: the blind nut-trap bore at the concrete parameters adds only
the two wall triangles. -/
theorem bore_top_fan_only_non_nutTrap_witness :
    (boreSection pNutTrap 10 ⟨[], []⟩).faces.length =
      (⟨[], []⟩ : MeshState).faces.length + 2 * pNutTrap.segments :=
  ((bore_top_fan_only_non_nutTrap pNutTrap 10 ⟨[], []⟩ rfl
    (by rw [pNutTrap_boreZBot]; norm_num [pNutTrap, pPlain])).1 rfl).1

/-- C3 counterexample: the bore builder, run on the blind nut-trap
configuration (bore top z = 10 above the pocket top 2.6), emits exactly the
four wall corner vertices and none of them is the claimed apex-fan centre
`(0, 0, 10)` at the bore's top — no fan closes the bore. -/
theorem bore_top_fan_nutTrap_counterexample :
    (boreSection pNutTrap 10 ⟨[], []⟩).verts.length = 4 ∧
      ∀ v ∈ (boreSection pNutTrap 10 ⟨[], []⟩).verts, v ≠ ((0 : ℝ), (0 : ℝ), (10 : ℝ)) := by
  have hz : (10 : ℝ) > boreZBot pNutTrap := by
    rw [pNutTrap_boreZBot]
    norm_num
  have hthrough : pNutTrap.through_hole = false := rfl
  have hzt : pNutTrap.hole_depth = (10 : ℝ) := by norm_num [pNutTrap, pPlain]
  have hstep : boreSection pNutTrap 10 ⟨[], []⟩ =
      stitchRingPair ⟨[], []⟩
        ((shaft_profile pNutTrap).map (fun q => (q.1, q.2, boreZBot pNutTrap)))
        ((shaft_profile pNutTrap).map (fun q => (q.1, q.2, pNutTrap.hole_depth)))
        pNutTrap.segments true := by
    unfold boreSection
    rw [hthrough]
    simp only [Bool.false_eq_true, if_false]
    rw [if_pos (by rw [hzt]; exact hz)]
    rw [if_neg (by rintro ⟨_, hne⟩; exact hne rfl)]
  have hsp : shaft_profile pNutTrap = create_circle_profile 3.2 1 := rfl
  have hgetD : (create_circle_profile 3.2 1).getD 0 (0, 0) =
      ((3.2 : ℝ) / 2 * Real.cos (2 * Real.pi * (0 : ℕ) / (1 : ℕ)),
        (3.2 : ℝ) / 2 * Real.sin (2 * Real.pi * (0 : ℕ) / (1 : ℕ))) :=
    create_circle_profile_getD 3.2 1 0 (by norm_num)
  have hx : ((3.2 : ℝ) / 2 * Real.cos (2 * Real.pi * (0 : ℕ) / (1 : ℕ)),
      (3.2 : ℝ) / 2 * Real.sin (2 * Real.pi * (0 : ℕ) / (1 : ℕ))) = ((1.6 : ℝ), (0 : ℝ)) := by
    norm_num
  rw [hstep]
  constructor
  · rw [stitchRingPair_verts_length]
    rfl
  · rw [stitchRingPair_verts]
    intro v hv
    have hn1 : pNutTrap.segments = 1 := rfl
    rw [hn1, show List.range 1 = [0] from rfl] at hv
    simp only [List.flatMap_cons, List.flatMap_nil, List.append_nil, List.nil_append,
      List.mem_cons, List.not_mem_nil, or_false, Nat.zero_add, Nat.mod_self] at hv
    have hmap : ∀ z : ℝ,
        ((shaft_profile pNutTrap).map (fun q => (q.1, q.2, z))).getD 0 (0, 0, 0) =
          ((1.6 : ℝ), (0 : ℝ), z) := by
      intro z
      rw [hsp]
      unfold create_circle_profile
      rw [List.getD_eq_getElem _ _ (by simp)]
      simp only [List.getElem_map, List.getElem_range]
      norm_num
    rw [hmap, hmap] at hv
    rcases hv with rfl | rfl | rfl | rfl <;>
      (intro hc
       rw [Prod.mk.injEq] at hc
       norm_num at hc)


theorem dishRings_blind_eval (p : KnobParams) (ztm : ℝ)
    (hthrough : p.through_hole = false) (hrd : (0.01 : ℝ) < p.recess_diameter) :
    (dishRings p ztm).getLastD [] =
      (List.range p.segments).map (fun (i : ℕ) =>
        ((0 : ℝ), (0 : ℝ), ztm - p.recess_depth)) ∧
      (dishRings p ztm).length = 6 := by
  have hrd0 : (0 : ℝ) < p.recess_diameter := lt_trans (by norm_num) hrd
  have hA : ∀ k : ℝ, 0 ≤ k → ¬(p.recess_diameter / 2 * k < 0) := by
    intro k hk
    push_neg
    positivity
  have hB : ∀ k : ℝ, (1 / 5 : ℝ) ≤ k → ¬(p.recess_diameter / 2 * k ≤ 1 / 1000) := by
    intro k hk
    push_neg
    nlinarith
  have hA1 := hA (4 / 5) (by norm_num)
  have hA2 := hA (3 / 5) (by norm_num)
  have hA3 := hA (2 / 5) (by norm_num)
  have hA4 := hA (1 / 5) (by norm_num)
  have hB1 := hB (4 / 5) (by norm_num)
  have hB2 := hB (3 / 5) (by norm_num)
  have hB3 := hB (2 / 5) (by norm_num)
  have hB4 := hB (1 / 5) (by norm_num)
  unfold dishRings
  rw [hthrough]
  simp only [Bool.false_eq_true, if_false]
  rw [show List.range 5 = [0, 1, 2, 3, 4] from rfl]
  simp only [List.foldl_cons, List.foldl_nil]
  norm_num
  simp only [if_neg hA1, if_neg hA2, if_neg hA3, if_neg hA4, decide_eq_true_eq,
    if_neg hB1, if_neg hB2, if_neg hB3, if_neg hB4]
  constructor
  · simp
  · simp

/-- C2 (amended): for `through_hole = false` the dish radius floor `hole_r` is
0, not the bore radius, so (for any dish diameter above the break threshold)
the finger-dish rings shrink all the way to the axis: the terminal dish ring
consists of `segments` copies of the point `(0, 0, z_top - recess_depth)`;
the dish-floor apex fan is then skipped (its radius-0 centre fails the
`> 0.1` guard), so the recess branch emits exactly the `12 * segments` stitch
triangles, and `z_shaft_top_limit` becomes `z_top - recess_depth`. -/
theorem dish_blind_floor_collapses (p : KnobParams) (s : MeshState)
    (hseg : 0 < p.segments) (hdome : p.is_dome = false) (hrec : 0 < p.recess_depth)
    (hthrough : p.through_hole = false) (hshaft : p.shaft_type = ShaftType.RoundHole)
    (hrd : (0.01 : ℝ) < p.recess_diameter) :
    (∀ q ∈ (dishRings p (zTopMesh p)).getLastD [],
        q = ((0 : ℝ), (0 : ℝ), zTopMesh p - p.recess_depth)) ∧
      (topClosure p s).1.faces.length = s.faces.length + 12 * p.segments ∧
      (topClosure p s).2 = zTopMesh p - p.recess_depth := by
  obtain ⟨hlast, hlen6⟩ := dishRings_blind_eval p (zTopMesh p) hthrough hrd
  have hqf : ((dishRings p (zTopMesh p)).getLastD []).getD 0 (0, 0, 0) =
      ((0 : ℝ), (0 : ℝ), zTopMesh p - p.recess_depth) := by
    rw [hlast]
    rw [List.getD_eq_getElem _ _ (by simpa using hseg)]
    simp only [List.getElem_map, List.getElem_range]
  refine ⟨?_, ?_⟩
  · intro q hq
    rw [hlast] at hq
    simp only [List.mem_map] at hq
    obtain ⟨a, _, rfl⟩ := hq
    rfl
  unfold topClosure
  rw [hdome]
  simp only [Bool.false_eq_true, if_false]
  rw [if_pos hrec]
  dsimp only
  rw [hqf]
  dsimp only
  rw [if_neg (by
    rintro ⟨_, hgt⟩
    rw [show ((0 : ℝ) ^ 2 + (0 : ℝ) ^ 2) = 0 by norm_num, Real.sqrt_zero] at hgt
    norm_num at hgt)]
  constructor
  · rw [hlen6]
    refine (foldl_range_faces_length _ (2 * p.segments) ?_ _ _).trans ?_
    · intro st i
      exact stitchRingPair_faces_length st _ _ p.segments false
    · rw [stitchRingPair_faces_length]
      ring
  · rfl

/-- C2 witness: at the concrete dish parameters `z_shaft_top_limit` becomes
`z_top - recess_depth`. -/
theorem dish_blind_floor_collapses_witness :
    (topClosure pRecess ⟨[], []⟩).2 = zTopMesh pRecess - pRecess.recess_depth :=
  (dish_blind_floor_collapses pRecess ⟨[], []⟩ (by norm_num [pRecess, pPlain]) rfl
    (by norm_num [pRecess, pPlain]) rfl rfl (by norm_num [pRecess, pPlain])).2.2

theorem zTopMesh_pRecess : zTopMesh pRecess = 15 := by
  unfold zTopMesh topOuterRing
  rw [outerRings_plain pRecess (by norm_num [pRecess, pPlain]) rfl rfl rfl rfl rfl rfl]
  rw [show ∀ a b : List Pt3, [a, b].getLastD [] = b from fun a b => rfl]
  rw [List.getD_eq_getElem _ _ (by
    rw [List.length_map, body_profile_length]
    norm_num [pRecess, pPlain])]
  simp only [List.getElem_map]
  norm_num [pRecess, pPlain]

/-- C2 counterexample: with `recess_depth = 5`, diameter 25, Round Hole and
`through_hole = false`, the terminal dish ring point is `(0, 0, 10)` — planar
radius 0 — not a point at the bore radius `shaft_dia / 2 = 3`: the dish does
not terminate at the bore radius. -/
theorem dish_blind_floor_counterexample :
    ((dishRings pRecess (zTopMesh pRecess)).getLastD []).getD 0 (0, 0, 0) =
        ((0 : ℝ), (0 : ℝ), (10 : ℝ)) ∧
      pRecess.shaft_dia / 2 = (3 : ℝ) ∧
      Real.sqrt ((0 : ℝ) ^ 2 + (0 : ℝ) ^ 2) ≠ pRecess.shaft_dia / 2 := by
  obtain ⟨hlast, _⟩ := dishRings_blind_eval pRecess (zTopMesh pRecess) rfl
    (by norm_num [pRecess, pPlain])
  refine ⟨?_, by norm_num [pRecess, pPlain], ?_⟩
  · rw [hlast]
    rw [List.getD_eq_getElem _ _ (by norm_num [pRecess, pPlain])]
    simp only [List.getElem_map, List.getElem_range]
    rw [zTopMesh_pRecess]
    norm_num [pRecess, pPlain]
  · rw [show ((0 : ℝ) ^ 2 + (0 : ℝ) ^ 2) = 0 by norm_num, Real.sqrt_zero]
    norm_num [pRecess, pPlain]

/-! ### Signed-volume development for the plain round through-hole family -/

theorem body_profile_round (p : KnobParams) (hstyle : p.knob_style = KnobStyle.Round)
    (hridges : p.ridges = 0) :
    body_profile p = create_circle_profile p.knob_diameter p.segments := by
  unfold body_profile
  rw [hstyle]
  dsimp only
  rw [if_neg (by rw [hridges]; exact lt_irrefl 0)]

theorem shaft_profile_roundHole (p : KnobParams)
    (hshaft : p.shaft_type = ShaftType.RoundHole) :
    shaft_profile p = create_circle_profile p.shaft_dia p.segments := by
  unfold shaft_profile
  rw [hshaft]

/-- In the no-dome, no-recess, through-hole round configuration the top
closure stitches the top outer ring to the bore circle at `z_top_mesh`. -/
theorem topClosure_plain_through (p : KnobParams) (s : MeshState)
    (hdome : p.is_dome = false) (hrec : p.recess_depth = 0)
    (hthrough : p.through_hole = true) (hshaft : p.shaft_type = ShaftType.RoundHole) :
    topClosure p s =
      (stitchRingPair s (topOuterRing p)
        ((create_circle_profile p.shaft_dia p.segments).map
          (fun q => (q.1, q.2, zTopMesh p))) p.segments false,
       zTopMesh p) := by
  unfold topClosure
  rw [hdome, hrec, hthrough, hshaft]
  norm_num
  rw [if_neg (show ¬(ShaftType.RoundHole = ShaftType.NutTrap ∧
    p.nut_location = NutLocation.Top) from by rintro ⟨hc, _⟩; cases hc)]

theorem zTopMesh_plain (p : KnobParams) (hh : 0 ≤ p.knob_height)
    (hboss : p.boss_height = 0) (hbfr : p.bottom_fillet_radius = 0)
    (hbfh : p.bottom_fillet_height = 0) (hdome : p.is_dome = false)
    (htfr : p.top_fillet_radius = 0) (htfh : p.top_fillet_height = 0)
    (hseg : 0 < p.segments) :
    zTopMesh p = p.knob_height := by
  unfold zTopMesh topOuterRing
  rw [outerRings_plain p hh hboss hbfr hbfh hdome htfr htfh]
  rw [show ∀ a b : List Pt3, [a, b].getLastD [] = b from fun a b => rfl]
  rw [List.getD_eq_getElem _ _ (by rw [List.length_map, body_profile_length]; exact hseg)]
  simp only [List.getElem_map]

/-- Through-hole bore: the full-height inverted wall, no fan. -/
theorem boreSection_through (p : KnobParams) (zl : ℝ) (s : MeshState)
    (hthrough : p.through_hole = true) (hz : zl > boreZBot p) :
    boreSection p zl s =
      stitchRingPair s ((shaft_profile p).map (fun q => (q.1, q.2, boreZBot p)))
        ((shaft_profile p).map (fun q => (q.1, q.2, zl))) p.segments true := by
  unfold boreSection
  rw [hthrough]
  simp only [if_true]
  rw [if_pos hz, if_neg (by rintro ⟨hf, _⟩; simp at hf)]

theorem bottomSection_nonNutTrap (p : KnobParams) (s : MeshState)
    (hshaft : p.shaft_type ≠ ShaftType.NutTrap) :
    bottomSection p s =
      stitchRingPairRev s ((outerRings p).headD [])
        ((shaft_profile p).map (fun q => (q.1, q.2, (0 : ℝ)))) p.segments := by
  unfold bottomSection
  rw [if_neg (by rintro ⟨h1, _⟩; exact hshaft h1)]

theorem assembled_stitchRingPair (s : MeshState) (r1 r2 : List Pt3) (n : ℕ) (flip : Bool)
    (h : s.wf) :
    assembledTriangles (stitchRingPair s r1 r2 n flip) =
      assembledTriangles s ++ (List.range n).flatMap (fun i =>
        quadTris (r1.getD i (0, 0, 0)) (r1.getD ((i + 1) % n) (0, 0, 0))
          (r2.getD ((i + 1) % n) (0, 0, 0)) (r2.getD i (0, 0, 0)) flip) :=
  assembled_quadLoop _ _ _ _ flip n s h

theorem assembled_stitchRingPairRev (s : MeshState) (r1 r2 : List Pt3) (n : ℕ)
    (h : s.wf) :
    assembledTriangles (stitchRingPairRev s r1 r2 n) =
      assembledTriangles s ++ (List.range n).flatMap (fun i =>
        quadTris (r1.getD ((i + 1) % n) (0, 0, 0)) (r1.getD i (0, 0, 0))
          (r2.getD i (0, 0, 0)) (r2.getD ((i + 1) % n) (0, 0, 0)) false) :=
  assembled_quadLoop _ _ _ _ false n s h

theorem signedVolume_append (l1 l2 : List (Pt3 × Pt3 × Pt3)) :
    signedVolume (l1 ++ l2) = signedVolume l1 + signedVolume l2 := by
  unfold signedVolume
  rw [List.map_append, List.sum_append]

theorem signedVolume_flatMap (f : ℕ → List (Pt3 × Pt3 × Pt3)) (l : List ℕ) :
    signedVolume (l.flatMap f) = (l.map (fun i => signedVolume (f i))).sum := by
  induction l with
  | nil => simp [signedVolume]
  | cons a t ih =>
    rw [List.flatMap_cons, signedVolume_append, ih, List.map_cons, List.sum_cons]

theorem signedVolume_quadTris (q1 q2 q3 q4 : Pt3) (flip : Bool) :
    signedVolume (quadTris q1 q2 q3 q4 flip) =
      if flip then det3 q1 q3 q2 / 6 + det3 q1 q4 q3 / 6
      else det3 q1 q2 q3 / 6 + det3 q1 q3 q4 / 6 := by
  unfold quadTris signedVolume
  cases flip <;> simp

theorem wall_quad_det (a h c s c' s' : ℝ) :
    det3 (a * c, a * s, 0) (a * c', a * s', 0) (a * c', a * s', h) +
      det3 (a * c, a * s, 0) (a * c', a * s', h) (a * c, a * s, h) =
      2 * a ^ 2 * h * (c * s' - s * c') := by
  unfold det3
  dsimp only
  ring

theorem top_quad_det (a b h c s c' s' : ℝ) :
    det3 (a * c, a * s, h) (a * c', a * s', h) (b * c', b * s', h) +
      det3 (a * c, a * s, h) (b * c', b * s', h) (b * c, b * s, h) =
      (a ^ 2 - b ^ 2) * h * (c * s' - s * c') := by
  unfold det3
  dsimp only
  ring

theorem bore_quad_det (b h c s c' s' : ℝ) :
    det3 (b * c, b * s, 0) (b * c', b * s', h) (b * c', b * s', 0) +
      det3 (b * c, b * s, 0) (b * c, b * s, h) (b * c', b * s', h) =
      -(2 * b ^ 2 * h * (c * s' - s * c')) := by
  unfold det3
  dsimp only
  ring

theorem flat_quad_det (x1 y1 x2 y2 x3 y3 x4 y4 : ℝ) :
    det3 (x1, y1, 0) (x2, y2, 0) (x3, y3, 0) + det3 (x1, y1, 0) (x3, y3, 0) (x4, y4, 0)
      = 0 := by
  unfold det3
  dsimp only
  ring

theorem cos_sin_angle_mod (n i : ℕ) (hn : 0 < n) :
    Real.cos (2 * Real.pi * (((i + 1) % n : ℕ) : ℝ) / n) =
        Real.cos (2 * Real.pi * (((i + 1 : ℕ)) : ℝ) / n) ∧
      Real.sin (2 * Real.pi * (((i + 1) % n : ℕ) : ℝ) / n) =
        Real.sin (2 * Real.pi * (((i + 1 : ℕ)) : ℝ) / n) := by
  have hn' : ((n : ℝ)) ≠ 0 := Nat.cast_ne_zero.mpr (Nat.pos_iff_ne_zero.mp hn)
  have hmd : ((i + 1) % n : ℕ) + n * ((i + 1) / n : ℕ) = i + 1 := Nat.mod_add_div _ _
  have hcast : (((i + 1) % n : ℕ) : ℝ) = ((i + 1 : ℕ) : ℝ) - n * (((i + 1) / n : ℕ) : ℝ) := by
    have h := congrArg (fun k : ℕ => (k : ℝ)) hmd
    push_cast at h ⊢
    linarith
  have hangle : 2 * Real.pi * (((i + 1) % n : ℕ) : ℝ) / n =
      2 * Real.pi * ((i + 1 : ℕ) : ℝ) / n +
        ((-(((i + 1) / n : ℕ) : ℤ) : ℤ) : ℝ) * (2 * Real.pi) := by
    rw [hcast, Int.cast_neg, Int.cast_natCast]
    field_simp
    ring
  constructor
  · rw [hangle]
    exact Real.cos_add_int_mul_two_pi _ _
  · rw [hangle]
    exact Real.sin_add_int_mul_two_pi _ _

theorem angle_step (n i : ℕ) (hn : 0 < n) :
    2 * Real.pi * ((i + 1 : ℕ) : ℝ) / n - 2 * Real.pi * (i : ℝ) / n = 2 * Real.pi / n := by
  have hn' : ((n : ℝ)) ≠ 0 := Nat.cast_ne_zero.mpr (Nat.pos_iff_ne_zero.mp hn)
  push_cast
  field_simp
  ring

theorem sin_step (n i : ℕ) (hn : 0 < n) :
    Real.cos (2 * Real.pi * (i : ℝ) / n) * Real.sin (2 * Real.pi * ((i + 1 : ℕ)) / n) -
        Real.sin (2 * Real.pi * (i : ℝ) / n) * Real.cos (2 * Real.pi * ((i + 1 : ℕ)) / n) =
      Real.sin (2 * Real.pi / n) := by
  rw [← angle_step n i hn, Real.sin_sub]
  push_cast
  ring

theorem circle_ring_getD (d z : ℝ) (n i : ℕ) (hi : i < n) :
    ((create_circle_profile d n).map (fun q => (q.1, q.2, z))).getD i (0, 0, 0) =
      (d / 2 * Real.cos (2 * Real.pi * (i : ℝ) / n),
        d / 2 * Real.sin (2 * Real.pi * (i : ℝ) / n), z) := by
  have h2 : i < (create_circle_profile d n).length := by
    rw [create_circle_profile_length]
    exact hi
  have hlen : i < ((create_circle_profile d n).map (fun q => (q.1, q.2, z))).length := by
    rw [List.length_map]
    exact h2
  rw [List.getD_eq_getElem _ _ hlen, List.getElem_map,
    ← List.getD_eq_getElem _ (0, 0) h2, create_circle_profile_getD d n i hi]

theorem sum_const_range (n : ℕ) (K : ℝ) (f : ℕ → ℝ) (h : ∀ i < n, f i = K) :
    ((List.range n).map f).sum = n * K := by
  have hmap : (List.range n).map f = List.replicate n K := by
    refine List.eq_replicate_iff.mpr ⟨by simp, ?_⟩
    intro x hx
    simp only [List.mem_map, List.mem_range] at hx
    obtain ⟨i, hi, rfl⟩ := hx
    exact h i hi
  rw [hmap]
  simp

theorem sin_two_pi_div_nat_nonneg (n : ℕ) : 0 ≤ Real.sin (2 * Real.pi / n) := by
  match n with
  | 0 => simp
  | 1 => norm_num [Real.sin_two_pi]
  | 2 =>
    rw [show 2 * Real.pi / ((2 : ℕ) : ℝ) = Real.pi by push_cast; ring]
    rw [Real.sin_pi]
  | (m + 3) =>
    have hpi := Real.pi_pos
    have hm : (3 : ℝ) ≤ ((m + 3 : ℕ) : ℝ) := by push_cast; linarith
    have h1 : 0 < 2 * Real.pi / ((m + 3 : ℕ) : ℝ) := by positivity
    have h2 : 2 * Real.pi / ((m + 3 : ℕ) : ℝ) < Real.pi := by
      rw [div_lt_iff (by linarith)]
      nlinarith
    exact le_of_lt (Real.sin_pos_of_pos_of_lt_pi h1 h2)

theorem sin_two_pi_div_nat_pos (n : ℕ) (hn : 3 ≤ n) : 0 < Real.sin (2 * Real.pi / n) := by
  have hpi := Real.pi_pos
  have hm : (3 : ℝ) ≤ (n : ℝ) := by exact_mod_cast hn
  have h1 : 0 < 2 * Real.pi / (n : ℝ) := by positivity
  have h2 : 2 * Real.pi / (n : ℝ) < Real.pi := by
    rw [div_lt_iff (by linarith)]
    nlinarith
  exact Real.sin_pos_of_pos_of_lt_pi h1 h2

/-- C4 witness: concrete instantiation at `N = 4`, diameter 2, 5 lobes with
ratio 1/2, 6 sides, flat width 1.8. -/
theorem profile_count_and_angle_order_witness :
    (create_circle_profile 2 4).length = 4 ∧ (create_polygon_profile 2 6 4).length = 4 :=
  ⟨(profile_count_and_angle_order 4 (by norm_num) 2 (by norm_num) 5 (1/2) (by norm_num)
      (by norm_num) 6 (by norm_num) 1.8 (by norm_num)).1.1,
    (profile_count_and_angle_order 4 (by norm_num) 2 (by norm_num) 5 (1/2) (by norm_num)
      (by norm_num) 6 (by norm_num) 1.8 (by norm_num)).1.2.2.1⟩

theorem signedVolume_quadTris_false (q1 q2 q3 q4 : Pt3) :
    signedVolume (quadTris q1 q2 q3 q4 false) =
      det3 q1 q2 q3 / 6 + det3 q1 q3 q4 / 6 := by
  unfold quadTris signedVolume
  simp

theorem signedVolume_quadTris_true (q1 q2 q3 q4 : Pt3) :
    signedVolume (quadTris q1 q2 q3 q4 true) =
      det3 q1 q3 q2 / 6 + det3 q1 q4 q3 / 6 := by
  unfold quadTris signedVolume
  simp

theorem plain_through_volume (p : KnobParams)
    (hstyle : p.knob_style = KnobStyle.Round) (hridges : p.ridges = 0)
    (htfr : p.top_fillet_radius = 0) (htfh : p.top_fillet_height = 0)
    (hbfr : p.bottom_fillet_radius = 0) (hbfh : p.bottom_fillet_height = 0)
    (hboss : p.boss_height = 0) (hdome : p.is_dome = false)
    (hrec : p.recess_depth = 0) (hshaft : p.shaft_type = ShaftType.RoundHole)
    (hthrough : p.through_hole = true)
    (hseg : 0 < p.segments) (hh : 0 < p.knob_height) :
    signedVolume (assembledTriangles (generate_knob_mesh p)) =
      (p.segments : ℝ) / 2 * p.knob_height *
        ((p.knob_diameter / 2) ^ 2 - (p.shaft_dia / 2) ^ 2) *
        Real.sin (2 * Real.pi / p.segments) := by
  have hne : p.shaft_type ≠ ShaftType.NutTrap := by rw [hshaft]; rintro hc; cases hc
  have hOR := outerRings_plain p hh.le hboss hbfr hbfh hdome htfr htfh
  have hZ := zTopMesh_plain p hh.le hboss hbfr hbfh hdome htfr htfh hseg
  have hbody := body_profile_round p hstyle hridges
  have hsp := shaft_profile_roundHole p hshaft
  have hs1 : stitchedShell p =
      stitchRingPair ⟨[], []⟩
        ((create_circle_profile p.knob_diameter p.segments).map (fun q => (q.1, q.2, (0 : ℝ))))
        ((create_circle_profile p.knob_diameter p.segments).map
          (fun q => (q.1, q.2, p.knob_height))) p.segments false := by
    unfold stitchedShell
    rw [hOR, hbody]
    rfl
  have htop : topOuterRing p = (create_circle_profile p.knob_diameter p.segments).map
      (fun q => (q.1, q.2, p.knob_height)) := by
    unfold topOuterRing
    rw [hOR, hbody]
    rfl
  have hhead : (outerRings p).headD [] = (create_circle_profile p.knob_diameter p.segments).map
      (fun q => (q.1, q.2, (0 : ℝ))) := by
    rw [hOR, hbody]
    rfl
  have hTC := topClosure_plain_through p (stitchedShell p) hdome hrec hthrough hshaft
  have hBz : zTopMesh p > boreZBot p := by
    rw [boreZBot_nonNutTrap p hne, hZ]
    exact hh
  have hgen : generate_knob_mesh p =
      stitchRingPairRev
        (stitchRingPair
          (stitchRingPair
            (stitchRingPair ⟨[], []⟩
              ((create_circle_profile p.knob_diameter p.segments).map
                (fun q => (q.1, q.2, (0 : ℝ))))
              ((create_circle_profile p.knob_diameter p.segments).map
                (fun q => (q.1, q.2, p.knob_height))) p.segments false)
            ((create_circle_profile p.knob_diameter p.segments).map
              (fun q => (q.1, q.2, p.knob_height)))
            ((create_circle_profile p.shaft_dia p.segments).map
              (fun q => (q.1, q.2, p.knob_height))) p.segments false)
          ((create_circle_profile p.shaft_dia p.segments).map
            (fun q => (q.1, q.2, (0 : ℝ))))
          ((create_circle_profile p.shaft_dia p.segments).map
            (fun q => (q.1, q.2, p.knob_height))) p.segments true)
        ((create_circle_profile p.knob_diameter p.segments).map
          (fun q => (q.1, q.2, (0 : ℝ))))
        ((create_circle_profile p.shaft_dia p.segments).map
          (fun q => (q.1, q.2, (0 : ℝ)))) p.segments := by
    show bottomSection p (boreSection p (topClosure p (stitchedShell p)).2
        (nutTrapSection p (topClosure p (stitchedShell p)).1)) = _
    rw [hTC]
    dsimp only
    rw [nutTrapSection_nonNutTrap p _ hne,
      boreSection_through p _ _ hthrough hBz,
      bottomSection_nonNutTrap p _ hne,
      hs1, htop, hhead, hsp, hZ, boreZBot_nonNutTrap p hne]
  have hw0 : (⟨[], []⟩ : MeshState).wf := by
    intro f hf
    simp at hf
  have hw1 := wf_stitchRingPair
    ((create_circle_profile p.knob_diameter p.segments).map (fun q => (q.1, q.2, (0 : ℝ))))
    ((create_circle_profile p.knob_diameter p.segments).map
      (fun q => (q.1, q.2, p.knob_height))) p.segments false hw0
  have hw2 := wf_stitchRingPair
    ((create_circle_profile p.knob_diameter p.segments).map (fun q => (q.1, q.2, p.knob_height)))
    ((create_circle_profile p.shaft_dia p.segments).map (fun q => (q.1, q.2, p.knob_height)))
    p.segments false hw1
  have hw3 := wf_stitchRingPair
    ((create_circle_profile p.shaft_dia p.segments).map (fun q => (q.1, q.2, (0 : ℝ))))
    ((create_circle_profile p.shaft_dia p.segments).map (fun q => (q.1, q.2, p.knob_height)))
    p.segments true hw2
  rw [hgen,
    assembled_stitchRingPairRev _ _ _ _ hw3,
    assembled_stitchRingPair _ _ _ _ _ hw2,
    assembled_stitchRingPair _ _ _ _ _ hw1,
    assembled_stitchRingPair _ _ _ _ _ hw0,
    show assembledTriangles ⟨[], []⟩ = [] from rfl]
  simp only [List.nil_append]
  rw [signedVolume_append, signedVolume_append, signedVolume_append,
    signedVolume_flatMap, signedVolume_flatMap, signedVolume_flatMap, signedVolume_flatMap]
  rw [sum_const_range p.segments
    (2 * (p.knob_diameter / 2) ^ 2 * p.knob_height * Real.sin (2 * Real.pi / p.segments) / 6) _
    ?wall]
  rw [sum_const_range p.segments
    (((p.knob_diameter / 2) ^ 2 - (p.shaft_dia / 2) ^ 2) * p.knob_height *
      Real.sin (2 * Real.pi / p.segments) / 6) _ ?top]
  rw [sum_const_range p.segments
    (-(2 * (p.shaft_dia / 2) ^ 2 * p.knob_height * Real.sin (2 * Real.pi / p.segments)) / 6) _
    ?bore]
  rw [sum_const_range p.segments 0 _ ?bot]
  · ring
  case wall =>
    intro i hi
    have hi' : (i + 1) % p.segments < p.segments := Nat.mod_lt _ hseg
    rw [circle_ring_getD _ _ _ _ hi, circle_ring_getD _ _ _ _ hi',
      circle_ring_getD _ _ _ _ hi', circle_ring_getD _ _ _ _ hi,
      signedVolume_quadTris_false, div_add_div_same,
      (cos_sin_angle_mod p.segments i hseg).1, (cos_sin_angle_mod p.segments i hseg).2,
      wall_quad_det, sin_step p.segments i hseg]
  case top =>
    intro i hi
    have hi' : (i + 1) % p.segments < p.segments := Nat.mod_lt _ hseg
    rw [circle_ring_getD _ _ _ _ hi, circle_ring_getD _ _ _ _ hi',
      circle_ring_getD _ _ _ _ hi', circle_ring_getD _ _ _ _ hi,
      signedVolume_quadTris_false, div_add_div_same,
      (cos_sin_angle_mod p.segments i hseg).1, (cos_sin_angle_mod p.segments i hseg).2,
      top_quad_det, sin_step p.segments i hseg]
  case bore =>
    intro i hi
    have hi' : (i + 1) % p.segments < p.segments := Nat.mod_lt _ hseg
    rw [circle_ring_getD _ _ _ _ hi, circle_ring_getD _ _ _ _ hi',
      circle_ring_getD _ _ _ _ hi', circle_ring_getD _ _ _ _ hi,
      signedVolume_quadTris_true, div_add_div_same,
      (cos_sin_angle_mod p.segments i hseg).1, (cos_sin_angle_mod p.segments i hseg).2,
      bore_quad_det, sin_step p.segments i hseg]
  case bot =>
    intro i hi
    have hi' : (i + 1) % p.segments < p.segments := Nat.mod_lt _ hseg
    rw [circle_ring_getD _ _ _ _ hi', circle_ring_getD _ _ _ _ hi,
      circle_ring_getD _ _ _ _ hi, circle_ring_getD _ _ _ _ hi',
      signedVolume_quadTris_false, div_add_div_same, flat_quad_det]
    norm_num

/-- C7 (amended): in the plain round through-hole family the signed volume
equals `(n/2) * h * ((d/2)^2 - (s/2)^2) * sin(2*pi/n)`.  With all other
parameters fixed it is monotone non-decreasing in the knob diameter, and in
the knob height whenever the bore diameter does not exceed the knob diameter;
but when the through bore is wider than the knob body the signed volume
strictly decreases as the height grows, so the claimed unconditional height
monotonicity fails. -/
theorem signed_volume_monotonicity (p : KnobParams)
    (hstyle : p.knob_style = KnobStyle.Round) (hridges : p.ridges = 0)
    (htfr : p.top_fillet_radius = 0) (htfh : p.top_fillet_height = 0)
    (hbfr : p.bottom_fillet_radius = 0) (hbfh : p.bottom_fillet_height = 0)
    (hboss : p.boss_height = 0) (hdome : p.is_dome = false)
    (hrec : p.recess_depth = 0) (hshaft : p.shaft_type = ShaftType.RoundHole)
    (hthrough : p.through_hole = true) (hseg : 0 < p.segments) :
    (∀ d1 d2 : ℝ, 0 ≤ d1 → d1 ≤ d2 → 0 < p.knob_height →
      signedVolume (assembledTriangles (generate_knob_mesh
          { p with knob_diameter := d1 })) ≤
        signedVolume (assembledTriangles (generate_knob_mesh
          { p with knob_diameter := d2 }))) ∧
      (0 ≤ p.shaft_dia → p.shaft_dia ≤ p.knob_diameter →
        ∀ h1 h2 : ℝ, 0 < h1 → h1 ≤ h2 →
        signedVolume (assembledTriangles (generate_knob_mesh
            { p with knob_height := h1 })) ≤
          signedVolume (assembledTriangles (generate_knob_mesh
            { p with knob_height := h2 }))) ∧
      (0 ≤ p.knob_diameter → p.knob_diameter < p.shaft_dia → 3 ≤ p.segments →
        ∀ h1 h2 : ℝ, 0 < h1 → h1 < h2 →
        signedVolume (assembledTriangles (generate_knob_mesh
            { p with knob_height := h2 })) <
          signedVolume (assembledTriangles (generate_knob_mesh
            { p with knob_height := h1 }))) := by
  have hS : 0 ≤ Real.sin (2 * Real.pi / p.segments) := sin_two_pi_div_nat_nonneg p.segments
  have hn0 : (0 : ℝ) ≤ (p.segments : ℝ) := Nat.cast_nonneg _
  refine ⟨?_, ?_, ?_⟩
  · intro d1 d2 hd1 hd12 hh
    rw [plain_through_volume { p with knob_diameter := d1 } hstyle hridges htfr htfh hbfr
        hbfh hboss hdome hrec hshaft hthrough hseg hh,
      plain_through_volume { p with knob_diameter := d2 } hstyle hridges htfr htfh hbfr
        hbfh hboss hdome hrec hshaft hthrough hseg hh]
    have hpow : (d1 / 2) ^ 2 ≤ (d2 / 2) ^ 2 :=
      pow_le_pow_left (by linarith) (by linarith) 2
    nlinarith [mul_nonneg (mul_nonneg (mul_nonneg hn0 hh.le) hS) (sub_nonneg.mpr hpow)]
  · intro hb0 hbd h1 h2 hh1 hh12
    rw [plain_through_volume { p with knob_height := h1 } hstyle hridges htfr htfh hbfr
        hbfh hboss hdome hrec hshaft hthrough hseg hh1,
      plain_through_volume { p with knob_height := h2 } hstyle hridges htfr htfh hbfr
        hbfh hboss hdome hrec hshaft hthrough hseg (lt_of_lt_of_le hh1 hh12)]
    have hpow : (p.shaft_dia / 2) ^ 2 ≤ (p.knob_diameter / 2) ^ 2 :=
      pow_le_pow_left (by linarith) (by linarith) 2
    nlinarith [mul_nonneg (mul_nonneg (mul_nonneg hn0 (by linarith : (0:ℝ) ≤ h2 - h1)) hS)
      (sub_nonneg.mpr hpow)]
  · intro hd0 hds hseg3 h1 h2 hh1 hh12
    rw [plain_through_volume { p with knob_height := h1 } hstyle hridges htfr htfh hbfr
        hbfh hboss hdome hrec hshaft hthrough hseg hh1,
      plain_through_volume { p with knob_height := h2 } hstyle hridges htfr htfh hbfr
        hbfh hboss hdome hrec hshaft hthrough hseg (lt_trans hh1 hh12)]
    have hSpos : 0 < Real.sin (2 * Real.pi / p.segments) :=
      sin_two_pi_div_nat_pos p.segments hseg3
    have hn3 : (3 : ℝ) ≤ (p.segments : ℝ) := by exact_mod_cast hseg3
    have hpow : (p.knob_diameter / 2) ^ 2 < (p.shaft_dia / 2) ^ 2 :=
      pow_lt_pow_left (by linarith) (by linarith) (by norm_num)
    nlinarith [mul_pos (mul_pos (mul_pos (by linarith : (0:ℝ) < (p.segments : ℝ))
      (by linarith : (0:ℝ) < h2 - h1)) hSpos) (sub_pos.mpr hpow)]

/-- C7 witness: diameter monotonicity at the concrete through-hole knob. -/
theorem signed_volume_monotonicity_witness :
    signedVolume (assembledTriangles (generate_knob_mesh
        { pThrough 10 15 6 4 with knob_diameter := 10 })) ≤
      signedVolume (assembledTriangles (generate_knob_mesh
        { pThrough 10 15 6 4 with knob_diameter := 12 })) :=
  (signed_volume_monotonicity (pThrough 10 15 6 4) rfl rfl rfl rfl rfl rfl rfl rfl rfl rfl
      rfl (by norm_num [pThrough, pPlain])).1 10 12 (by norm_num) (by norm_num)
    (by norm_num [pThrough, pPlain])

/-- C7 counterexample: an oversized through bore (shaft 15 on a diameter-10
knob, 4 segments) makes the signed volume strictly DECREASE when the height
grows from 10 to 20, refuting the claimed monotonicity in height. -/
theorem signed_volume_height_counterexample :
    signedVolume (assembledTriangles (generate_knob_mesh (pThrough 10 20 15 4))) <
      signedVolume (assembledTriangles (generate_knob_mesh (pThrough 10 10 15 4))) := by
  rw [plain_through_volume (pThrough 10 10 15 4) rfl rfl rfl rfl rfl rfl rfl rfl rfl rfl rfl
      (by norm_num [pThrough, pPlain]) (by norm_num [pThrough, pPlain]),
    plain_through_volume (pThrough 10 20 15 4) rfl rfl rfl rfl rfl rfl rfl rfl rfl rfl rfl
      (by norm_num [pThrough, pPlain]) (by norm_num [pThrough, pPlain])]
  have hsin : Real.sin (2 * Real.pi / (4 : ℝ)) = 1 := by
    rw [show (2 : ℝ) * Real.pi / 4 = Real.pi / 2 by ring, Real.sin_pi_div_two]
  have hpi := Real.pi_pos
  norm_num [pThrough, pPlain, hsin]

end KnobGen
